import Mathlib

set_option autoImplicit false

/-!
# stock-ticker: the series normaliser and the provider client

A shallow embedding of `cmd/main.go`.

* The `float64` arithmetic the program uses (`+`, `/`, the conversion `float64(len(data))`,
  the zero value) and `strconv.ParseFloat` are the operations of the class `Float64`; the
  general theorems hold for every instance. `Binary64` is the instance of the Go runtime:
  IEEE 754 binary64 with round to nearest even; examples are evaluated in it.
* `strconv.ParseInt(s, 10, 64)` is embedded concretely.
* A Go map is a finite table; the order in which `range` yields its keys is an explicit
  argument `dates` of `processTimeSeries`, constrained by `IsEnumeration`.
* `nDays` is a Go `int`: an `Int` here, since the program only compares it.
* `encoding/json` and the HTTP client are arguments of `fetchStockData` and of the handler;
  `EncodesJSON` is the contract of the encoder, and `jsonRuntime` is a runtime of binary64
  that writes the text of `encoding/json`.
* `os.Getenv` and `strconv.Quote` are arguments of `loadConfig`; `int` has 64 bits.
-/

namespace StockTicker

/-! ## strconv -/

/-- The `Err` field of a `strconv.NumError`. -/
inductive NumError where
  | ErrSyntax
  | ErrRange
  deriving DecidableEq, Repr

/-- The `float64` operations used by the program. `ParseFloat s` is
`strconv.ParseFloat(s, 64)`: the value it returns and its error (`none` is a nil error). -/
class Float64 (F : Type) where
  /-- The zero value of `float64` -/
  zero : F
  /-- Go's `x + y` -/
  add : F → F → F
  /-- Go's `x / y` -/
  div : F → F → F
  /-- Go's conversion `float64(n)` of an integer -/
  ofInt : Int → F
  /-- Go's `strconv.ParseFloat(s, 64)` -/
  ParseFloat : String → F × Option NumError

/-- Largest `uint64`. -/
def maxUint64 : Nat := 2 ^ 64 - 1

/-- The digit loop of `strconv.ParseUint(s, 10, 64)` from the accumulator `n` on: a byte that
is not a decimal digit is a syntax error with value 0; as soon as the value leaves `uint64`
the loop returns the largest `uint64` with a range error, without reading further. -/
def parseUintLoop : List Char → Nat → Nat × Option NumError
  | [], n => (n, none)
  | c :: cs, n =>
    if '0' ≤ c ∧ c ≤ '9' then
      if n ≥ maxUint64 / 10 + 1 then (maxUint64, some .ErrRange)
      else
        let n1 := n * 10 + (c.toNat - '0'.toNat)
        if n1 > maxUint64 then (maxUint64, some .ErrRange)
        else parseUintLoop cs n1
    else (0, some .ErrSyntax)

/-- Go's `strconv.ParseUint(s, 10, 64)`. -/
def ParseUint (s : String) : Nat × Option NumError :=
  if s = "" then (0, some .ErrSyntax) else parseUintLoop s.data 0

/-- The text after an optional leading sign. -/
def afterSign (s : List Char) : List Char :=
  match s with
  | c :: cs => if c = '+' ∨ c = '-' then cs else s
  | [] => []

/-- The second half of `strconv.ParseInt`: the range check of the magnitude `r` returned by
`ParseUint` and the sign. A syntax error returns 0; a value outside `int64` returns the
nearest bound of `int64` with a range error. -/
def intOfUint (neg : Bool) (r : Nat × Option NumError) : Int × Option NumError :=
  if r.2 = some .ErrSyntax then (0, some .ErrSyntax)
  else if neg = false ∧ r.1 ≥ 2 ^ 63 then ((2 : Int) ^ 63 - 1, some .ErrRange)
  else if neg = true ∧ r.1 > 2 ^ 63 then (-(2 : Int) ^ 63, some .ErrRange)
  else (if neg = true then -(r.1 : Int) else (r.1 : Int), none)

/-- Go's `strconv.ParseInt(s, 10, 64)`: an optional sign and decimal digits. -/
def ParseInt (s : String) : Int × Option NumError :=
  if s = "" then (0, some .ErrSyntax)
  else intOfUint (decide (s.data.head? = some '-')) (ParseUint ⟨afterSign s.data⟩)

/-! ## IEEE 754 binary64 -/

/-- The values of an IEEE 754 binary64 number: a finite value is `±mant · 2^exp`. -/
inductive Binary64 where
  | nan
  | inf (neg : Bool)
  | finite (neg : Bool) (mant : Nat) (exp : Int)
  deriving DecidableEq, Repr

namespace Binary64

/-- Whether `2^k ≤ n/d`. -/
def geTwoPow (n d : Nat) (k : Int) : Bool :=
  if 0 ≤ k then decide (d * 2 ^ k.toNat ≤ n) else decide (d ≤ n * 2 ^ (-k).toNat)

/-- Bisection for the `k` with `2^k ≤ n/d < 2^(k+1)` between `lo` and `hi`. -/
def binade (n d : Nat) : Nat → Int → Int → Int
  | 0, lo, _ => lo
  | fuel + 1, lo, hi =>
    if hi ≤ lo + 1 then lo
    else
      let mid := (lo + hi) / 2
      if geTwoPow n d mid then binade n d fuel mid hi else binade n d fuel lo mid

/-- The binary64 value nearest to `±n/d`, ties to the even significand; infinite from
`2^1024 - 2^970` on. -/
def round (neg : Bool) (n d : Nat) : Binary64 :=
  if n = 0 ∨ d = 0 then .finite neg 0 (-1074)
  else if geTwoPow n d 1024 then .inf neg
  else
    let k : Int := if geTwoPow n d (-1022) then binade n d 12 (-1022) 1024 else -1022
    let e : Int := k - 52
    let num : Nat := if 0 ≤ e then n else n * 2 ^ (-e).toNat
    let den : Nat := if 0 ≤ e then d * 2 ^ e.toNat else d
    let m : Nat := num / den
    let r : Nat := num % den
    let m1 : Nat := if 2 * r > den ∨ (2 * r = den ∧ m % 2 = 1) then m + 1 else m
    if m1 = 2 ^ 53 then (if e + 1 > 971 then .inf neg else .finite neg (2 ^ 52) (e + 1))
    else .finite neg m1 e

/-- The value `±mant · 2^exp` rounded. -/
def roundScaled (neg : Bool) (mant : Nat) (exp : Int) : Binary64 :=
  if 0 ≤ exp then round neg (mant * 2 ^ exp.toNat) 1 else round neg mant (2 ^ (-exp).toNat)

/-- IEEE 754 addition, round to nearest even. -/
def add : Binary64 → Binary64 → Binary64
  | .nan, _ => .nan
  | _, .nan => .nan
  | .inf a, .inf b => if a = b then .inf a else .nan
  | .inf a, .finite _ _ _ => .inf a
  | .finite _ _ _, .inf b => .inf b
  | .finite s1 m1 e1, .finite s2 m2 e2 =>
    let e : Int := min e1 e2
    let a : Int := (if s1 then -1 else 1) * ((m1 * 2 ^ (e1 - e).toNat : Nat) : Int)
    let b : Int := (if s2 then -1 else 1) * ((m2 * 2 ^ (e2 - e).toNat : Nat) : Int)
    if a + b = 0 then .finite (s1 && s2) 0 (-1074)
    else roundScaled (decide (a + b < 0)) (a + b).natAbs e

/-- IEEE 754 division, round to nearest even. -/
def div : Binary64 → Binary64 → Binary64
  | .nan, _ => .nan
  | _, .nan => .nan
  | .inf _, .inf _ => .nan
  | .inf a, .finite s _ _ => .inf (xor a s)
  | .finite s _ _, .inf b => .finite (xor s b) 0 (-1074)
  | .finite s1 m1 e1, .finite s2 m2 e2 =>
    if m2 = 0 then (if m1 = 0 then .nan else .inf (xor s1 s2))
    else if e2 ≤ e1 then round (xor s1 s2) (m1 * 2 ^ (e1 - e2).toNat) m2
    else round (xor s1 s2) m1 (m2 * 2 ^ (e2 - e1).toNat)

/-- The conversion of an integer. -/
def ofInt (n : Int) : Binary64 := round (decide (n < 0)) n.natAbs 1

/-! ### strconv.ParseFloat -/

/-- The length of the longest common beginning of `s`, letters lowered, and `t`. -/
def commonLen : List Char → List Char → Nat
  | c :: cs, p :: ps => if c.toLower = p then commonLen cs ps + 1 else 0
  | _, _ => 0

/-- Go's `special`: `inf` and `infinity` with an optional sign, and `nan`, in any case,
when they are the whole string. -/
def special (s : List Char) : Option Binary64 :=
  match s with
  | [] => none
  | c :: cs =>
    if c = '+' ∨ c = '-' then
      let n := commonLen cs "infinity".data
      if (n = 3 ∨ n = 8) ∧ n = cs.length then some (.inf (decide (c = '-'))) else none
    else if c = 'i' ∨ c = 'I' then
      let n := commonLen s "infinity".data
      if (n = 3 ∨ n = 8) ∧ n = s.length then some (.inf false) else none
    else if c = 'n' ∨ c = 'N' then
      if commonLen s "nan".data = 3 ∧ s.length = 3 then some .nan else none
    else none

/-- The digit value of a character in the base, if it is a digit of the base. -/
def digitOf (hex : Bool) (c : Char) : Option Nat :=
  if '0' ≤ c ∧ c ≤ '9' then some (c.toNat - '0'.toNat)
  else if hex ∧ 'a' ≤ c.toLower ∧ c.toLower ≤ 'f' then some (c.toLower.toNat - 'a'.toNat + 10)
  else none

/-- Go's `underscoreOK` on the text after the sign: `saw` is the class of the last
character, `'0'` for a digit or base prefix, `'_'`, `'!'` for another, `'^'` at the start. -/
def underscoreLoop (hex : Bool) : List Char → Char → Bool
  | [], saw => saw ≠ '_'
  | c :: cs, saw =>
    if (digitOf hex c).isSome then underscoreLoop hex cs '0'
    else if c = '_' then (if saw ≠ '0' then false else underscoreLoop hex cs '_')
    else if saw = '_' then false
    else underscoreLoop hex cs '!'

/-- Go's `underscoreOK`. -/
def underscoreOK (s : List Char) : Bool :=
  let t := match s with
    | c :: cs => if c = '-' ∨ c = '+' then cs else s
    | [] => s
  match t with
  | c0 :: c1 :: rest =>
    if c0 = '0' ∧ (c1.toLower = 'b' ∨ c1.toLower = 'o' ∨ c1.toLower = 'x') then
      underscoreLoop (c1.toLower = 'x') rest '0'
    else underscoreLoop false t '^'
  | _ => underscoreLoop false t '^'

/-- The significand as read so far by `readFloat`. -/
structure Mantissa where
  sawdot : Bool
  sawdigits : Bool
  mant : Nat
  frac : Nat

/-- The digit loop of `readFloat`: digits, underscores and one point; the unread rest. -/
def readDigits (hex : Bool) : List Char → Mantissa → Mantissa × List Char
  | [], st => (st, [])
  | c :: cs, st =>
    if c = '_' then readDigits hex cs st
    else if c = '.' then
      if st.sawdot then (st, c :: cs) else readDigits hex cs { st with sawdot := true }
    else
      match digitOf hex c with
      | some v =>
        readDigits hex cs { st with sawdigits := true
                                    mant := st.mant * (if hex then 16 else 10) + v
                                    frac := if st.sawdot then st.frac + 1 else st.frac }
      | none => (st, c :: cs)

/-- The digits of the exponent, capped as in `readFloat`; `none` if another character
follows. -/
def readExp : List Char → Nat → Option Nat
  | [], e => some e
  | c :: cs, e =>
    if c = '_' then readExp cs e
    else if '0' ≤ c ∧ c ≤ '9' then
      readExp cs (if e < 10000 then e * 10 + (c.toNat - '0'.toNat) else e)
    else none

/-- The exponent part: nothing (decimal only), or the exponent character, an optional sign
and digits starting with a digit. -/
def readExponent (hex : Bool) (s : List Char) : Option Int :=
  match s with
  | [] => if hex then none else some 0
  | c :: cs =>
    if c.toLower = (if hex then 'p' else 'e') then
      let neg := cs.head? = some '-'
      let ds := if cs.head? = some '+' ∨ cs.head? = some '-' then cs.tail else cs
      match ds with
      | [] => none
      | d :: _ =>
        if '0' ≤ d ∧ d ≤ '9' then
          match readExp ds 0 with
          | some e => some (if neg then -(e : Int) else (e : Int))
          | none => none
        else none
    else none

/-- `10^k` times `±mant`, rounded. -/
def roundDecimal (neg : Bool) (mant : Nat) (k : Int) : Binary64 :=
  if 0 ≤ k then round neg (mant * 10 ^ k.toNat) 1 else round neg mant (10 ^ (-k).toNat)

/-- The result of `ParseFloat` for a malformed string. -/
def syntaxError : Binary64 × Option NumError := (.finite false 0 (-1074), some .ErrSyntax)

/-- A rounded value with the range error that `ParseFloat` reports for an infinity. -/
def withRange (v : Binary64) : Binary64 × Option NumError :=
  match v with
  | .inf _ => (v, some .ErrRange)
  | _ => (v, none)

/-- Whether the text after the sign starts a hexadecimal literal: `0x` or `0X` and at least
one more character. -/
def isHex (body : List Char) : Bool :=
  match body with
  | c0 :: c1 :: _ :: _ => decide (c0 = '0' ∧ c1.toLower = 'x')
  | _ => false

/-- Go's `readFloat` and the conversion on the text `body` after the sign, where
`underscores` tells whether the underscores of the string, if any, are placed well. -/
def parseNumber (neg : Bool) (body : List Char) (underscores : Bool) :
    Binary64 × Option NumError :=
  let hex := isHex body
  let r := readDigits hex (if hex then body.drop 2 else body)
    { sawdot := false, sawdigits := false, mant := 0, frac := 0 }
  if r.1.sawdigits = false then syntaxError
  else
    match readExponent hex r.2 with
    | none => syntaxError
    | some e =>
      if underscores = false then syntaxError
      else if hex then withRange (roundScaled neg r.1.mant (e - 4 * (r.1.frac : Int)))
      else withRange (roundDecimal neg r.1.mant (e - (r.1.frac : Int)))

/-- Go's `strconv.ParseFloat(s, 64)`: the special values, decimal and hexadecimal
floating-point literals, rounded to the nearest binary64; a malformed string is a syntax
error with value 0, a value that rounds to an infinity a range error with that infinity. -/
def ParseFloat (s : String) : Binary64 × Option NumError :=
  match special s.data with
  | some v => (v, none)
  | none =>
    parseNumber (decide (s.data.head? = some '-')) (afterSign s.data)
      (!s.data.contains '_' || underscoreOK s.data)

end Binary64

/-- IEEE 754 binary64 with Go's `strconv.ParseFloat`: the `float64` of the Go runtime. -/
instance : Float64 Binary64 where
  zero := .finite false 0 (-1074)
  add := Binary64.add
  div := Binary64.div
  ofInt := Binary64.ofInt
  ParseFloat := Binary64.ParseFloat

/-! ## Data model -/

/-- What `encoding/json` stores in an `interface{}`; `null` is the nil interface value. -/
inductive JSONValue (F : Type) where
  | null
  | bool (b : Bool)
  | number (x : F)
  | string (s : String)
  | array (xs : List (JSONValue F))
  | object (fields : List (String × JSONValue F))

/-- The comma-ok type assertion `v.(string)`: the string and `true`, or `""` and `false`. -/
def JSONValue.assertString {F : Type} : JSONValue F → String × Bool
  | .string s => (s, true)
  | _ => ("", false)

/-- A Go `map[string]V`: `none` is the nil map, `some es` the table in which the first entry
of a key is its value. -/
def GoMap (V : Type) : Type := Option (List (String × V))

namespace GoMap

variable {V : Type}

/-- The entries of the table (none for the nil map). -/
def entries (m : GoMap V) : List (String × V) :=
  match m with
  | none => []
  | some es => es

/-- Distinct elements of a list, first occurrences kept. -/
def distinct : List String → List String
  | [] => []
  | k :: ks => k :: (distinct ks).filter (fun x => x ≠ k)

/-- The keys of the map, each once. -/
def keys (m : GoMap V) : List String := distinct (m.entries.map Prod.fst)

/-- Go's `len(m)`. -/
def len (m : GoMap V) : Nat := m.keys.length

/-- Go's `m[k]`: the value of `k`, or the zero value `zero` of `V` when `k` is absent (also
on the nil map). -/
def get (zero : V) (m : GoMap V) (k : String) : V :=
  match m.entries.lookup k with
  | some v => v
  | none => zero

end GoMap

/-- An order in which `for date := range m` may yield the keys of `m`: each key once. -/
def IsEnumeration {V : Type} (m : GoMap V) (dates : List String) : Prop :=
  dates.Perm m.keys

/-- A single day of stock data. -/
structure TimeSeriesData (F : Type) where
  Date : String
  OpenPrice : F
  HighPrice : F
  LowPrice : F
  ClosePrice : F
  Volume : Int
  deriving DecidableEq, Repr

/-- The provider's per-date mapping of field labels to values. -/
abbrev DayData (F : Type) : Type := GoMap (JSONValue F)

/-- The provider's `Time Series (Daily)` mapping. -/
abbrev TimeSeries (F : Type) : Type := GoMap (DayData F)

/-! ## processTimeSeries -/

/-- The variables `data` and `totalClose` of `processTimeSeries`. -/
structure Acc (F : Type) where
  data : List (TimeSeriesData F)
  totalClose : F

/-- How a run ends: normally with a result, with a run-time fault, or cut off by the fuel
of the embedding. -/
inductive Run (α : Type) where
  | done (a : α)
  | indexOutOfRange
  | nilDereference
  | outOfFuel
  deriving DecidableEq, Repr

variable {F : Type} [Float64 F]

/-- One pass through the body of the loop of `processTimeSeries` for `date`. -/
def loopBody (timeSeries : TimeSeries F) (date : String) (st : Acc F) : Acc F :=
  let dayData : DayData F := GoMap.get none timeSeries date
  let closePriceStr := (GoMap.get .null dayData "4. close").assertString
  if closePriceStr.2 = false then st
  else
    let closePrice := Float64.ParseFloat (F := F) closePriceStr.1
    if closePrice.2 ≠ none then st
    else
      let openPriceStr := (GoMap.get .null dayData "1. open").assertString
      let openPrice := Float64.ParseFloat (F := F) openPriceStr.1
      let highPriceStr := (GoMap.get .null dayData "2. high").assertString
      let highPrice := Float64.ParseFloat (F := F) highPriceStr.1
      let lowPriceStr := (GoMap.get .null dayData "3. low").assertString
      let lowPrice := Float64.ParseFloat (F := F) lowPriceStr.1
      let volumeStr := (GoMap.get .null dayData "5. volume").assertString
      let volume := ParseInt volumeStr.1
      { data := st.data ++ [{ Date := date
                              OpenPrice := openPrice.1
                              HighPrice := highPrice.1
                              LowPrice := lowPrice.1
                              ClosePrice := closePrice.1
                              Volume := volume.1 }]
        totalClose := Float64.add st.totalClose closePrice.1 }

/-- The loop `for i := 0; i < limit && i < len(dates); i++` from index `i` on, run for at
most `fuel` evaluations of its condition. -/
def loop (timeSeries : TimeSeries F) (dates : List String) (limit : Int) :
    Nat → Nat → Acc F → Run (Acc F)
  | 0, _, _ => .outOfFuel
  | fuel + 1, i, st =>
    if (i : Int) < limit ∧ (i : Int) < (dates.length : Int) then
      match dates[i]? with
      | none => .indexOutOfRange
      | some date => loop timeSeries dates limit fuel (i + 1) (loopBody timeSeries date st)
    else .done st

/-- The function `processTimeSeries(timeSeries, nDays)`, where `dates` is the order in which
`range timeSeries` yields the keys. -/
def processTimeSeries (timeSeries : TimeSeries F) (nDays : Int) (dates : List String) :
    Run (List (TimeSeriesData F) × F) :=
  let limit : Int := if (dates.length : Int) < nDays then (dates.length : Int) else nDays
  match loop timeSeries dates limit (dates.length + 1) 0 { data := [], totalClose := Float64.zero } with
  | .done st =>
    let avgClose : F :=
      if st.data.length > 0 then Float64.div st.totalClose (Float64.ofInt (st.data.length : Int))
      else Float64.zero
    .done (st.data, avgClose)
  | .indexOutOfRange => .indexOutOfRange
  | .nilDereference => .nilDereference
  | .outOfFuel => .outOfFuel

/-! ## fetchStockData and the handler -/

/-- A Go `error` value, identified by its message. -/
structure GoError where
  msg : String
  deriving DecidableEq, Repr

/-- An `http.Response` as far as the program reads it: the text of its body. -/
structure Response where
  StatusCode : Int
  Body : String
  deriving DecidableEq, Repr

/-- The format returned by the Alpha Vantage API, decoded: a field that is absent or
`null` in the JSON text is the nil map. -/
structure AlphaVantageResponse (F : Type) where
  MetaData : GoMap (JSONValue F)
  TimeSeries : TimeSeries F

/-- The API response format. -/
structure StockResponse (F : Type) where
  Symbol : String
  Days : Int
  AverageClose : F
  Data : List (TimeSeriesData F)

/-- The application configuration. -/
structure Config where
  Symbol : String
  NDays : Int
  APIKey : String
  deriving DecidableEq, Repr

/-- The interface `HTTPClient`: `Get url` returns a response (or nil) and an error (or
nil). -/
structure HTTPClient where
  Get : String → Option Response × Option GoError

/-- What a request depends on besides the program: `encoding/json` and the order in which
`range` yields the keys of a map. -/
structure Runtime (F : Type) where
  /-- The call `json.NewDecoder(body).Decode(&avResp)` on the text of a body -/
  Decode : String → Except GoError (AlphaVantageResponse F)
  /-- The call `json.NewEncoder(w).Encode(response)`: the text written, or the error -/
  Encode : StockResponse F → Except GoError String
  /-- The order in which `for date := range timeSeries` yields the keys -/
  rangeKeys : TimeSeries F → List String

/-- What `fetchStockData` does to the outside, in order. -/
inductive Event where
  | Get (url : String)
  | Decode (body : String)
  | Close
  deriving DecidableEq, Repr

/-- The three results of `fetchStockData`. -/
structure Fetched (F : Type) where
  data : List (TimeSeriesData F)
  avgClose : F
  err : Option GoError
  deriving DecidableEq, Repr

/-- The URL `fetchStockData` builds with `fmt.Sprintf`: both strings verbatim. -/
def apiURL (apiKey symbol : String) : String :=
  "https://www.alphavantage.co/query?apikey=" ++ apiKey ++
    "&function=TIME_SERIES_DAILY&symbol=" ++ symbol

/-- The function `fetchStockData(symbol, nDays, apiKey, client)`: how it returns, and the
events it caused on the way. A nil response with a nil error is dereferenced by the
deferred `resp.Body.Close()`. -/
def fetchStockData (rt : Runtime F) (symbol : String) (nDays : Int) (apiKey : String)
    (client : HTTPClient) : Run (Fetched F) × List Event :=
  let url := apiURL apiKey symbol
  match client.Get url with
  | (_, some err) => (.done { data := [], avgClose := Float64.zero, err := some err }, [.Get url])
  | (none, none) => (.nilDereference, [.Get url])
  | (some resp, none) =>
    match rt.Decode resp.Body with
    | .error err =>
      (.done { data := [], avgClose := Float64.zero
               err := some ⟨"error decoding response: " ++ err.msg⟩ },
        [.Get url, .Decode resp.Body, .Close])
    | .ok avResp =>
      if avResp.TimeSeries.isNone then
        (.done { data := [], avgClose := Float64.zero
                 err := some ⟨"no time series data returned"⟩ },
          [.Get url, .Decode resp.Body, .Close])
      else
        match processTimeSeries avResp.TimeSeries nDays (rt.rangeKeys avResp.TimeSeries) with
        | .done r =>
          (.done { data := r.1, avgClose := r.2, err := none },
            [.Get url, .Decode resp.Body, .Close])
        | .indexOutOfRange => (.indexOutOfRange, [.Get url, .Decode resp.Body])
        | .nilDereference => (.nilDereference, [.Get url, .Decode resp.Body])
        | .outOfFuel => (.outOfFuel, [.Get url, .Decode resp.Body])

/-- An `http.Request` as far as the handler reads it. -/
structure Request where
  Method : String
  Header : List (String × String)
  Body : String

/-- What the handler has written to its `http.ResponseWriter`. -/
structure ResponseRecorder where
  Code : Int
  Header : List (String × String)
  Body : String
  deriving DecidableEq, Repr

/-- Go's `http.Error(w, error, code)`: a plain-text reply, the message and a newline. -/
def httpError (error : String) (code : Int) : ResponseRecorder :=
  { Code := code
    Header := [("Content-Type", "text/plain; charset=utf-8"), ("X-Content-Type-Options", "nosniff")]
    Body := error ++ "\n" }

/-- The handler returned by `createHandler(config, client)`, applied to a request: what it
wrote and the events it caused. When `Encode` fails nothing is written and the status
stays 200. -/
def createHandler (rt : Runtime F) (config : Config) (client : HTTPClient) (r : Request) :
    Run ResponseRecorder × List Event :=
  if r.Method ≠ "GET" then (.done (httpError "Method not allowed" 405), [])
  else
    match fetchStockData rt config.Symbol config.NDays config.APIKey client with
    | (.done f, evs) =>
      match f.err with
      | some err => (.done (httpError ("Error fetching stock data: " ++ err.msg) 500), evs)
      | none =>
        let response : StockResponse F :=
          { Symbol := config.Symbol, Days := config.NDays, AverageClose := f.avgClose
            Data := f.data }
        match rt.Encode response with
        | .ok text =>
          (.done { Code := 200, Header := [("Content-Type", "application/json")], Body := text }, evs)
        | .error _ =>
          (.done { Code := 200, Header := [("Content-Type", "application/json")], Body := "" }, evs)
    | (.indexOutOfRange, evs) => (.indexOutOfRange, evs)
    | (.nilDereference, evs) => (.nilDereference, evs)
    | (.outOfFuel, evs) => (.outOfFuel, evs)

/-! ## loadConfig -/

/-- Go's `strconv.Atoi(s)` where `int` has 64 bits: the value and the error of
`ParseInt(s, 10, 64)`. -/
def Atoi (s : String) : Int × Option NumError := ParseInt s

/-- The message of the `strconv.NumError` that the function `fn` returns for an input,
given quoted. -/
def numErrorText (fn quoted : String) (e : NumError) : String :=
  "strconv." ++ fn ++ ": parsing " ++ quoted ++ ": " ++
    (match e with
      | .ErrSyntax => "invalid syntax"
      | .ErrRange => "value out of range")

/-- The function `loadConfig()`: `getenv` is `os.Getenv` (the empty string for a variable
that is not set) and `quote` is `strconv.Quote`. -/
def loadConfig (getenv : String → String) (quote : String → String) : Except GoError Config :=
  let symbol := getenv "SYMBOL"
  if symbol = "" then .error ⟨"SYMBOL environment variable is required"⟩
  else
    let nDaysStr := getenv "NDAYS"
    if nDaysStr = "" then .error ⟨"NDAYS environment variable is required"⟩
    else
      match (Atoi nDaysStr).2 with
      | some e => .error ⟨"Invalid NDAYS value: " ++ numErrorText "Atoi" (quote nDaysStr) e⟩
      | none =>
        let apiKey := getenv "APIKEY"
        if apiKey = "" then .error ⟨"APIKEY environment variable is required"⟩
        else .ok { Symbol := symbol, NDays := (Atoi nDaysStr).1, APIKey := apiKey }

/-! ## The JSON encoding of the response -/

/-- A JSON document as `encoding/json` writes one. -/
inductive JSONDoc (F : Type) where
  | null
  | int (n : Int)
  | float (x : F)
  | string (s : String)
  | array (xs : List (JSONDoc F))
  | object (members : List (String × JSONDoc F))

/-- The document of a `TimeSeriesData`, from its `json` tags. -/
def TimeSeriesData.toDoc {G : Type} (d : TimeSeriesData G) : JSONDoc G :=
  .object [("date", .string d.Date), ("open", .float d.OpenPrice), ("high", .float d.HighPrice),
    ("low", .float d.LowPrice), ("close", .float d.ClosePrice), ("volume", .int d.Volume)]

/-- The document of a slice of records: `null` for the nil slice, which in this program is
the slice without records. -/
def dataDoc {G : Type} (data : List (TimeSeriesData G)) : JSONDoc G :=
  if data.isEmpty then .null else .array (data.map TimeSeriesData.toDoc)

/-- The document of a `StockResponse`, from its `json` tags. -/
def StockResponse.toDoc {G : Type} (r : StockResponse G) : JSONDoc G :=
  .object [("symbol", .string r.Symbol), ("days", .int r.Days),
    ("average_close", .float r.AverageClose), ("data", dataDoc r.Data)]

/-- The `float64` values of a `StockResponse`, in the order of encoding. -/
def StockResponse.floats {G : Type} (r : StockResponse G) : List G :=
  r.AverageClose ::
    (r.Data.map (fun d => [d.OpenPrice, d.HighPrice, d.LowPrice, d.ClosePrice])).flatten

/-- The contract of `json.NewEncoder(w).Encode(response)` for a runtime: when every
`float64` of the response is finite it writes the text of the document and a newline;
otherwise it writes nothing and returns an error. `isFinite` tells the finite values and
`render` is the text of a document. -/
def EncodesJSON {G : Type} (rt : Runtime G) (isFinite : G → Bool) (render : JSONDoc G → String) :
    Prop :=
  ∀ r : StockResponse G,
    (r.floats.all isFinite = true → rt.Encode r = .ok (render r.toDoc ++ "\n")) ∧
    (r.floats.all isFinite = false → ∃ e, rt.Encode r = .error e)

namespace Binary64

/-- Whether the value is finite. -/
def isFinite : Binary64 → Bool
  | .finite _ _ _ => true
  | _ => false

/-- Whether `10^k ≤ n/d`. -/
def geTenPow (n d : Nat) (k : Int) : Bool :=
  if 0 ≤ k then decide (d * 10 ^ k.toNat ≤ n) else decide (d ≤ n * 10 ^ (-k).toNat)

/-- Bisection for the `k` with `10^k ≤ n/d < 10^(k+1)` between `lo` and `hi`. -/
def decade (n d : Nat) : Nat → Int → Int → Int
  | 0, lo, _ => lo
  | fuel + 1, lo, hi =>
    if hi ≤ lo + 1 then lo
    else
      let mid := (lo + hi) / 2
      if geTenPow n d mid then decade n d fuel mid hi else decade n d fuel lo mid

/-- The decimal `c · 10^s` with `nd` digits that is nearest to `mant · 2^exp` and is read
back as that value, if there is one; `k` is the decimal exponent of the value. As in
`roundShortest` of strconv, when rounding down and rounding up are both read back as the
value the digits are rounded to the nearest, a tie going to the even last digit; when only
one of them is, that one is taken. -/
def shortestAt (mant : Nat) (exp k : Int) (nd : Nat) : Option (Nat × Int) :=
  let s : Int := k - ((nd : Int) - 1)
  let n0 : Nat := if 0 ≤ exp then mant * 2 ^ exp.toNat else mant
  let d0 : Nat := if 0 ≤ exp then 1 else 2 ^ (-exp).toNat
  let num : Nat := if 0 ≤ s then n0 else n0 * 10 ^ (-s).toNat
  let den : Nat := if 0 ≤ s then d0 * 10 ^ s.toNat else d0
  let lo : Nat := num / den
  let up : Bool := decide (den < 2 * (num % den)) ||
    (decide (2 * (num % den) = den) && decide (lo % 2 = 1))
  let near : Nat := if up then lo + 1 else lo
  let far : Nat := if up then lo else lo + 1
  if roundDecimal false near s = .finite false mant exp then some (near, s)
  else if roundDecimal false far s = .finite false mant exp then some (far, s)
  else none

/-- The shortest decimal that is read back as `mant · 2^exp`, trying `nd`, `nd + 1`, ...
digits; 17 digits always suffice. -/
def shortestFrom (mant : Nat) (exp k : Int) : Nat → Nat → Nat × Int
  | 0, _ => (0, 0)
  | fuel + 1, nd =>
    match shortestAt mant exp k nd with
    | some r => r
    | none => shortestFrom mant exp k fuel (nd + 1)

/-- The decimal digits of a natural number, most significant first, by repeated division;
`fuel` bounds the number of digits. -/
def natDigits : Nat → Nat → List Char → List Char
  | 0, _, acc => acc
  | fuel + 1, n, acc =>
    if n < 10 then Char.ofNat (n + 48) :: acc
    else natDigits fuel (n / 10) (Char.ofNat (n % 10 + 48) :: acc)

/-- A list without its trailing zero digits. -/
def dropTrailingZeros (cs : List Char) : List Char :=
  (cs.reverse.dropWhile (fun c => c = '0')).reverse

/-- The shortest digits of a positive finite value and the position `dp` of the decimal
point: the value is `0.d₁d₂… · 10^dp`. -/
def shortestDigits (mant : Nat) (exp : Int) : List Char × Int :=
  let n0 : Nat := if 0 ≤ exp then mant * 2 ^ exp.toNat else mant
  let d0 : Nat := if 0 ≤ exp then 1 else 2 ^ (-exp).toNat
  let k := decade n0 d0 12 (-400) 400
  let r := shortestFrom mant exp k 17 1
  let ds := natDigits 400 r.1 []
  (dropTrailingZeros ds, (ds.length : Int) + r.2)

/-- Go's format `%e` of shortest digits, with the exponent written as `encoding/json`
leaves it: at least two digits, but a single digit without its leading zero. -/
def formatE (ds : List Char) (dp : Int) : List Char :=
  let e := dp - 1
  let es := natDigits 400 e.natAbs []
  (match ds with
    | [] => ['0']
    | [c] => [c]
    | c :: cs => c :: '.' :: cs) ++
    ['e', if e < 0 then '-' else '+'] ++ es

/-- Go's format `%f` of shortest digits. -/
def formatF (ds : List Char) (dp : Int) : List Char :=
  if dp ≤ 0 then '0' :: '.' :: (List.replicate (-dp).toNat '0' ++ ds)
  else if (ds.length : Int) ≤ dp then ds ++ List.replicate (dp.toNat - ds.length) '0'
  else ds.take dp.toNat ++ '.' :: ds.drop dp.toNat

/-- Whether the positive value `mant · 2^exp` is below the magnitude of the finite value
`x`. -/
def ltDecimal (mant : Nat) (exp : Int) (x : Binary64) : Bool :=
  match x with
  | .finite _ m e =>
    if exp ≤ e then decide (mant < m * 2 ^ (e - exp).toNat)
    else decide (mant * 2 ^ (exp - e).toNat < m)
  | _ => false

/-- The text `encoding/json` writes for a finite `float64`: the shortest digits that are
read back as the value, in the format `%f`, or `%e` below `1e-6` and from `1e21` on. -/
def formatJSON (x : Binary64) : String :=
  match x with
  | .finite neg mant exp =>
    let sign : List Char := if neg then ['-'] else []
    if mant = 0 then ⟨sign ++ ['0']⟩
    else
      let r := shortestDigits mant exp
      if ltDecimal mant exp (roundDecimal false 1 (-6)) ∨
          ¬ ltDecimal mant exp (roundDecimal false 1 21) then
        ⟨sign ++ formatE r.1 r.2⟩
      else ⟨sign ++ formatF r.1 r.2⟩
  | .inf neg => if neg then "-Inf" else "+Inf"
  | .nan => "NaN"

end Binary64

/-- A hexadecimal digit. -/
def hexDigit (n : Nat) : Char :=
  if n < 10 then Char.ofNat (n + 48) else Char.ofNat (n + 87)

/-- The text `encoding/json` writes for one character of a string, with its default
escaping of `<`, `>` and `&`: 34 is the double quote, 92 the backslash. -/
def escapeChar (c : Char) : List Char :=
  if c.toNat = 34 then [Char.ofNat 92, Char.ofNat 34]
  else if c.toNat = 92 then [Char.ofNat 92, Char.ofNat 92]
  else if c.toNat = 10 then [Char.ofNat 92, 'n']
  else if c.toNat = 13 then [Char.ofNat 92, 'r']
  else if c.toNat = 9 then [Char.ofNat 92, 't']
  else if c.toNat = 8 then [Char.ofNat 92, 'b']
  else if c.toNat = 12 then [Char.ofNat 92, 'f']
  else if c.toNat < 32 ∨ c = '<' ∨ c = '>' ∨ c = '&' then
    [Char.ofNat 92, 'u', '0', '0', hexDigit (c.toNat / 16), hexDigit (c.toNat % 16)]
  else if c.toNat = 8232 then [Char.ofNat 92, 'u', '2', '0', '2', '8']
  else if c.toNat = 8233 then [Char.ofNat 92, 'u', '2', '0', '2', '9']
  else [c]

/-- The text `encoding/json` writes for a string. -/
def quoteJSON (s : String) : List Char :=
  Char.ofNat 34 :: (s.data.map escapeChar).flatten ++ [Char.ofNat 34]

/-- The decimal text of an integer. -/
def formatInt (n : Int) : List Char :=
  (if n < 0 then ['-'] else []) ++ Binary64.natDigits 400 n.natAbs []

mutual
/-- The text `encoding/json` writes for a document whose numbers are finite: 91 and 93 are
the brackets, 123 and 125 the braces. -/
def renderDoc : JSONDoc Binary64 → List Char
  | .null => "null".data
  | .int n => formatInt n
  | .float x => (Binary64.formatJSON x).data
  | .string s => quoteJSON s
  | .array xs => Char.ofNat 91 :: renderItems xs ++ [Char.ofNat 93]
  | .object ms => Char.ofNat 123 :: renderMembers ms ++ [Char.ofNat 125]
/-- The items of an array, separated by commas. -/
def renderItems : List (JSONDoc Binary64) → List Char
  | [] => []
  | [x] => renderDoc x
  | x :: y :: xs => renderDoc x ++ ',' :: renderItems (y :: xs)
/-- The members of an object, separated by commas. -/
def renderMembers : List (String × JSONDoc Binary64) → List Char
  | [] => []
  | [(k, v)] => quoteJSON k ++ ':' :: renderDoc v
  | (k, v) :: m :: ms => quoteJSON k ++ ':' :: renderDoc v ++ ',' :: renderMembers (m :: ms)
end

/-- The text of a document. -/
def renderJSON (d : JSONDoc Binary64) : String := ⟨renderDoc d⟩

/-- The error `encoding/json` returns for the first `float64` of the list that is not
finite. -/
def unsupportedValue (xs : List Binary64) : GoError :=
  ⟨"json: unsupported value: " ++
    ((xs.filter (fun x => !x.isFinite)).head?.map Binary64.formatJSON).getD ""⟩

/-- A runtime of binary64 with the encoder of `encoding/json`; its decoder returns `avResp`
for every body and it enumerates keys in table order. -/
def jsonRuntime (avResp : AlphaVantageResponse Binary64) : Runtime Binary64 :=
  { Decode := fun _ => .ok avResp
    Encode := fun r =>
      if r.floats.all Binary64.isFinite then .ok (renderJSON r.toDoc ++ "\n")
      else .error (unsupportedValue r.floats)
    rangeKeys := fun m => GoMap.keys m }

/-! ## Definitions used to state the properties -/

/-- The test of the loop body under which `date` is not skipped: its `"4. close"` is a string
and `ParseFloat` returns a nil error for it. -/
def closeParses (timeSeries : TimeSeries F) (date : String) : Bool :=
  let closePriceStr := (GoMap.get .null (GoMap.get none timeSeries date) "4. close").assertString
  closePriceStr.2 && decide ((Float64.ParseFloat (F := F) closePriceStr.1).2 = none)

/-- The string the body reads for the field `label` of `date`: the result of the type
assertion, `""` when the field is missing or not a string. -/
def fieldStr (timeSeries : TimeSeries F) (date label : String) : String :=
  (GoMap.get .null (GoMap.get none timeSeries date) label).assertString.1

/-- The record the loop body appends for a date it does not skip. -/
def recordOf (timeSeries : TimeSeries F) (date : String) : TimeSeriesData F :=
  { Date := date
    OpenPrice := (Float64.ParseFloat (F := F) (fieldStr timeSeries date "1. open")).1
    HighPrice := (Float64.ParseFloat (F := F) (fieldStr timeSeries date "2. high")).1
    LowPrice := (Float64.ParseFloat (F := F) (fieldStr timeSeries date "3. low")).1
    ClosePrice := (Float64.ParseFloat (F := F) (fieldStr timeSeries date "4. close")).1
    Volume := (ParseInt (fieldStr timeSeries date "5. volume")).1 }

/-- The field `label` of `date` is missing or is not a string. -/
def notString (timeSeries : TimeSeries F) (date label : String) : Prop :=
  (GoMap.get .null (GoMap.get none timeSeries date) label).assertString.2 = false

/-- The field `label` of `date` is missing, not a string, or a string that `ParseFloat`
rejects with a syntax error. -/
def malformedFloat (timeSeries : TimeSeries F) (date label : String) : Prop :=
  notString timeSeries date label ∨
    (Float64.ParseFloat (F := F) (fieldStr timeSeries date label)).2 = some .ErrSyntax

/-- The field `label` of `date` is missing, not a string, or a string that `ParseInt`
rejects with a syntax error. -/
def malformedInt (timeSeries : TimeSeries F) (date label : String) : Prop :=
  notString timeSeries date label ∨
    (ParseInt (fieldStr timeSeries date label)).2 = some .ErrSyntax

/-- Whether `c` is a decimal digit. -/
def isDecimalDigit (c : Char) : Bool := decide ('0' ≤ c ∧ c ≤ '9')

/-- Whether `s` is a decimal integer: an optional sign and then decimal digits, at least
one. -/
def isDecimalInteger (s : String) : Bool :=
  !(afterSign s.data).isEmpty && (afterSign s.data).all isDecimalDigit

/-- The number that a list of decimal digits denotes. -/
def digitsValue (cs : List Char) : Nat :=
  cs.foldl (fun n c => n * 10 + (c.toNat - '0'.toNat)) 0

/-- The integer that a decimal integer denotes. -/
def decimalValue (s : String) : Int :=
  if s.data.head? = some '-' then -(digitsValue (afterSign s.data) : Int)
  else (digitsValue (afterSign s.data) : Int)

/-- Whether an event is a call of the client's `Get`. -/
def Event.isGet : Event → Bool
  | .Get _ => true
  | _ => false

/-- The value of `limit` in `processTimeSeries`. -/
def limitOf (nDays : Int) (dates : List String) : Int :=
  if (dates.length : Int) < nDays then (dates.length : Int) else nDays

/-- The loop of `processTimeSeries` with the condition `i < limit` alone, without the guard
`i < len(dates)`: here only the bounds check of `dates[i]` stands between the index and the
slice. -/
def loopLimitOnly (timeSeries : TimeSeries F) (dates : List String) (limit : Int) :
    Nat → Nat → Acc F → Run (Acc F)
  | 0, _, _ => .outOfFuel
  | fuel + 1, i, st =>
    if (i : Int) < limit then
      match dates[i]? with
      | none => .indexOutOfRange
      | some date =>
        loopLimitOnly timeSeries dates limit fuel (i + 1) (loopBody timeSeries date st)
    else .done st

/-- The dates the loop visits: the first `min(nDays, len(dates))` entries of `dates`. -/
def window (nDays : Int) (dates : List String) : List String :=
  dates.take (min nDays (dates.length : Int)).toNat

/-- A day's entry of the provider with the five fields given as strings. -/
def dayEntry (opening high low closing volume : String) : DayData Binary64 :=
  some [("1. open", .string opening), ("2. high", .string high), ("3. low", .string low),
    ("4. close", .string closing), ("5. volume", .string volume)]

/-- The time series of the test `Single day`. -/
def singleDay : TimeSeries Binary64 :=
  some [("2025-01-15", dayEntry "234.50" "236.80" "233.20" "235.60" "45000000")]

/-- The time series of the test `Invalid close price`. -/
def invalidClose : TimeSeries Binary64 :=
  some [("2025-01-15", dayEntry "234.50" "236.80" "233.20" "invalid" "45000000")]

/-- A day whose close parses and whose open price and volume are numerals out of the range
of `float64` and of `int64`. -/
def outOfRangeDay : TimeSeries Binary64 :=
  some [("2025-01-15", dayEntry "1e999" "236.80" "233.20" "235.60" "9223372036854775808")]

/-- A day whose close parses and whose other fields are missing, not a string or
malformed. -/
def sparseDay : TimeSeries Binary64 :=
  some [("2025-01-15", some [("1. open", .number (.finite false 1 0)), ("2. high", .string "n/a"),
    ("4. close", .string "235.60"), ("5. volume", .string "12x")])]

/-- The time series of the test `Multiple days`. -/
def twoDays : TimeSeries Binary64 :=
  some [("2025-01-15", dayEntry "234.50" "236.80" "233.20" "235.60" "45000000"),
    ("2025-01-14", dayEntry "232.50" "234.80" "231.20" "233.60" "43000000")]

/-- An environment with the three variables of the program set to the given values (the
empty string stands for a variable that is not set). -/
def envOf (symbol nDays apiKey : String) : String → String :=
  fun name =>
    if name = "SYMBOL" then symbol
    else if name = "NDAYS" then nDays
    else if name = "APIKEY" then apiKey
    else ""

/-- Go's `strconv.Quote` on a text of printable ASCII characters other than the double
quote and the backslash: the text between double quotes. -/
def plainQuote (s : String) : String := "\"" ++ s ++ "\""

/-- A decoded response with the time series `timeSeries`. -/
def responseOf (timeSeries : TimeSeries Binary64) : AlphaVantageResponse Binary64 :=
  { MetaData := some [("2. Symbol", .string "AAPL")], TimeSeries := timeSeries }

/-- The decoded response of the test `No time series data`. -/
def noData : AlphaVantageResponse Binary64 :=
  { MetaData := some [], TimeSeries := none }

/-- The decoded response of the test `Invalid close price format`. -/
def invalidCloseResponse : AlphaVantageResponse Binary64 :=
  { MetaData := some [("2. Symbol", .string "AAPL")], TimeSeries := invalidClose }

/-- The configuration of the handler tests. -/
def testConfig : Config :=
  { Symbol := "AAPL", NDays := 5, APIKey := "test-api-key" }

/-- A GET request without body. -/
def getRequest : Request :=
  { Method := "GET", Header := [], Body := "" }

/-- A runtime whose decoder returns `avResp` for every body and which enumerates keys in
table order. -/
def fixedRuntime (avResp : AlphaVantageResponse Binary64) : Runtime Binary64 :=
  { Decode := fun _ => .ok avResp
    Encode := fun _ => .ok ""
    rangeKeys := fun m => GoMap.keys m }

/-- A client whose `Get` returns `r` for every URL. -/
def fixedClient (r : Option Response × Option GoError) : HTTPClient :=
  { Get := fun _ => r }

/-- A client whose `Get` returns `r` for the URL `url` and a nil response with a nil error
for every other URL. -/
def clientAt (url : String) (r : Option Response × Option GoError) : HTTPClient :=
  { Get := fun u => if u = url then r else (none, none) }

/-! ## Theorems -/

theorem loopBody_eq (timeSeries : TimeSeries F) (date : String) (st : Acc F) :
    loopBody timeSeries date st =
      if closeParses timeSeries date then
        { data := st.data ++ [recordOf timeSeries date]
          totalClose := Float64.add st.totalClose (recordOf timeSeries date).ClosePrice }
      else st := by
  unfold loopBody closeParses recordOf fieldStr
  by_cases h1 : (GoMap.get JSONValue.null (GoMap.get none timeSeries date) "4. close").assertString.2 = false
  · simp [h1]
  · by_cases h2 : (Float64.ParseFloat (F := F)
        (GoMap.get JSONValue.null (GoMap.get none timeSeries date) "4. close").assertString.1).2 = none
    · simp [h1, h2]
    · simp [h1, h2]

/-- The loop body folded over the dates it visits. -/
theorem foldl_loopBody (timeSeries : TimeSeries F) (ds : List String) (st : Acc F) :
    ds.foldl (fun a d => loopBody timeSeries d a) st =
      { data := st.data ++ (ds.filter (closeParses timeSeries)).map (recordOf timeSeries)
        totalClose := ((ds.filter (closeParses timeSeries)).map
          (fun d => (recordOf timeSeries d).ClosePrice)).foldl Float64.add st.totalClose } := by
  induction ds generalizing st with
  | nil => simp
  | cons d ds ih =>
    rw [List.foldl_cons, ih, loopBody_eq]
    by_cases h : closeParses timeSeries d = true
    · simp [h, List.filter_cons]
    · simp [h, List.filter_cons]

/-- With more fuel than indices left, the loop ends normally, having run its body over the
entries `i, i+1, ...` of the first `limit` dates. -/
theorem loop_done (timeSeries : TimeSeries F) (dates : List String) (limit : Int) :
    ∀ (fuel i : Nat) (st : Acc F), dates.length - i < fuel →
      loop timeSeries dates limit fuel i st =
        .done (((dates.take limit.toNat).drop i).foldl (fun a d => loopBody timeSeries d a) st) := by
  intro fuel
  induction fuel with
  | zero => intro i st h; omega
  | succ fuel ih =>
    intro i st h
    unfold loop
    by_cases hc : (i : Int) < limit ∧ (i : Int) < (dates.length : Int)
    · have hi : i < dates.length := by omega
      have hl : i < limit.toNat := by omega
      have hlen : i < (dates.take limit.toNat).length := by
        rw [List.length_take]; omega
      rw [if_pos hc, List.getElem?_eq_getElem hi]
      simp only
      rw [ih (i + 1) _ (by omega), List.drop_eq_getElem_cons hlen, List.foldl_cons,
        List.getElem_take]
    · have hlen : (dates.take limit.toNat).length ≤ i := by
        rw [List.length_take]; omega
      rw [if_neg hc, List.drop_eq_nil_of_le hlen, List.foldl_nil]

/-- The records `processTimeSeries` returns: one for each date of the window that is not
skipped, in order. -/
theorem processTimeSeries_eq (timeSeries : TimeSeries F) (nDays : Int) (dates : List String) :
    processTimeSeries timeSeries nDays dates =
      .done (((window nDays dates).filter (closeParses timeSeries)).map (recordOf timeSeries),
        if (((window nDays dates).filter (closeParses timeSeries)).map
            (recordOf timeSeries)).length > 0 then
          Float64.div
            ((((window nDays dates).filter (closeParses timeSeries)).map
              (fun d => (recordOf timeSeries d).ClosePrice)).foldl Float64.add Float64.zero)
            (Float64.ofInt ((((window nDays dates).filter (closeParses timeSeries)).map
              (recordOf timeSeries)).length : Int))
        else Float64.zero) := by
  have hlim : (if (dates.length : Int) < nDays then (dates.length : Int) else nDays) =
      min nDays (dates.length : Int) := by
    split <;> omega
  unfold processTimeSeries
  simp only [hlim]
  rw [loop_done timeSeries dates _ (dates.length + 1) 0 _ (by omega)]
  simp only [List.drop_zero, foldl_loopBody, List.nil_append]
  rfl

/-- C1 (window selection): the dates of the returned records are the dates among the first
`min(nDays, len(dates))` entries of `dates` whose `"4. close"` is a string that
`ParseFloat` accepts, in the order of `dates`; in particular every returned date is one of
those first entries. This holds for every list `dates`, so for every enumeration of the
keys of the mapping. -/
theorem c1_window_selection (timeSeries : TimeSeries F) (nDays : Int) (dates : List String) :
    ∃ data avg, processTimeSeries timeSeries nDays dates = .done (data, avg) ∧
      data.map TimeSeriesData.Date =
        (dates.take (min nDays (dates.length : Int)).toNat).filter (closeParses timeSeries) ∧
      ∀ r ∈ data, r.Date ∈ dates.take (min nDays (dates.length : Int)).toNat := by
  refine ⟨_, _, processTimeSeries_eq timeSeries nDays dates, ?_, ?_⟩
  · rw [List.map_map]
    exact List.map_id _
  · intro r hr
    obtain ⟨d, hd, rfl⟩ := List.mem_map.1 hr
    exact (List.mem_filter.1 hd).1

/-- C2 (average): the returned average is the sum of the `ClosePrice` fields of the
returned records, added in output order starting from the zero value, divided by the number
of returned records, and the zero value when no record is returned. -/
theorem c2_average (timeSeries : TimeSeries F) (nDays : Int) (dates : List String) :
    ∃ data avg, processTimeSeries timeSeries nDays dates = .done (data, avg) ∧
      avg = (if data.length = 0 then Float64.zero
        else Float64.div ((data.map TimeSeriesData.ClosePrice).foldl Float64.add Float64.zero)
          (Float64.ofInt (data.length : Int))) := by
  refine ⟨_, _, processTimeSeries_eq timeSeries nDays dates, ?_⟩
  by_cases h : (((window nDays dates).filter (closeParses timeSeries)).map
      (recordOf timeSeries)).length = 0
  · rw [if_pos h, if_neg (by omega)]
  · rw [if_neg h, if_pos (by omega), List.map_map]
    rfl

theorem window_length_le (nDays : Int) (dates : List String) :
    ((window nDays dates).length : Int) ≤ max nDays 0 := by
  unfold window
  rw [List.length_take]
  omega

theorem window_length (nDays : Int) (dates : List String) (h : 0 ≤ nDays) :
    ((window nDays dates).length : Int) = min nDays (dates.length : Int) := by
  unfold window
  rw [List.length_take]
  omega

/-- C3, counterexample: for the requested day count -1 the sequence has length 0, which is
not ≤ -1. -/
theorem c3_counterexample :
    ∃ data avg, processTimeSeries singleDay (-1) ["2025-01-15"] = .done (data, avg) ∧
      ¬ ((data.length : Int) ≤ -1) :=
  ⟨[], Float64.zero, by decide, by decide⟩

/-- C3 (length invariant, amended): the returned sequence has length ≤ max(nDays, 0), that
is at most `nDays` records for `nDays ≥ 0` and none for a negative `nDays`. -/
theorem c3_length_le (timeSeries : TimeSeries F) (nDays : Int) (dates : List String) :
    ∃ data avg, processTimeSeries timeSeries nDays dates = .done (data, avg) ∧
      (data.length : Int) ≤ max nDays 0 := by
  refine ⟨_, _, processTimeSeries_eq timeSeries nDays dates, ?_⟩
  have h1 := window_length_le nDays dates
  have h2 := List.length_filter_le (closeParses timeSeries) (window nDays dates)
  rw [List.length_map]
  omega

/-- C4 (exact length when everything parses): when the close of every date of the mapping
parses and `nDays ≥ 0`, the function returns `nDays` records if `nDays ≤ len(timeSeries)`
and `len(timeSeries)` records otherwise, in both cases normally. -/
theorem c4_exact_length (timeSeries : TimeSeries F) (nDays : Int) (dates : List String)
    (henum : IsEnumeration timeSeries dates)
    (hall : ∀ d ∈ timeSeries.keys, closeParses timeSeries d = true) (h0 : 0 ≤ nDays) :
    ∃ data avg, processTimeSeries timeSeries nDays dates = .done (data, avg) ∧
      (data.length : Int) =
        if nDays ≤ (timeSeries.len : Int) then nDays else (timeSeries.len : Int) := by
  refine ⟨_, _, processTimeSeries_eq timeSeries nDays dates, ?_⟩
  have hlen : timeSeries.len = dates.length := henum.length_eq.symm
  have hfilter : (window nDays dates).filter (closeParses timeSeries) = window nDays dates := by
    apply List.filter_eq_self.2
    intro d hd
    exact hall d (henum.subset (List.mem_of_mem_take hd))
  rw [List.length_map, hfilter, window_length nDays dates h0, hlen]
  split <;> omega

/-- C4, witness: the test `More days requested than available`. -/
theorem c4_exact_length_witness :
    ∃ data avg, processTimeSeries singleDay 5 ["2025-01-15"] = .done (data, avg) ∧
      (data.length : Int) = if (5 : Int) ≤ (singleDay.len : Int) then 5 else (singleDay.len : Int) :=
  c4_exact_length singleDay 5 ["2025-01-15"] (List.Perm.refl _) (by decide!) (by decide)

/-- C7 (empty and non-positive edge cases): for an empty mapping, and for `nDays ≤ 0`, the
function returns no records and the average 0. -/
theorem c7_empty_or_nonpositive (timeSeries : TimeSeries F) (nDays : Int) (dates : List String)
    (henum : IsEnumeration timeSeries dates) (h : timeSeries.len = 0 ∨ nDays ≤ 0) :
    processTimeSeries timeSeries nDays dates = .done ([], Float64.zero) := by
  have hw : window nDays dates = [] := by
    apply List.eq_nil_of_length_eq_zero
    have hlen : timeSeries.len = dates.length := henum.length_eq.symm
    unfold window
    rw [List.length_take]
    omega
  rw [processTimeSeries_eq, hw]
  rfl

/-- C7, witness: the test `Empty time series`, and the single day with `nDays = -3`. -/
theorem c7_empty_or_nonpositive_witness :
    processTimeSeries (some [] : TimeSeries Binary64) 5 [] = .done ([], Float64.zero) ∧
      processTimeSeries singleDay (-3) ["2025-01-15"] = .done ([], Float64.zero) :=
  ⟨c7_empty_or_nonpositive (some []) 5 [] (List.Perm.refl _) (Or.inl rfl),
    c7_empty_or_nonpositive singleDay (-3) ["2025-01-15"] (List.Perm.refl _) (Or.inr (by decide))⟩

/-- A syntax error of `ParseInt` comes with the value 0. -/
theorem ParseInt_malformed (s : String) (h : (ParseInt s).2 = some .ErrSyntax) :
    (ParseInt s).1 = 0 := by
  unfold ParseInt intOfUint at *
  split_ifs at h ⊢ <;> simp_all

theorem Binary64.withRange_wellformed (v : Binary64) :
    (Binary64.withRange v).2 ≠ some .ErrSyntax := by
  unfold Binary64.withRange
  split <;> simp

theorem Binary64.parseNumber_cases (neg : Bool) (body : List Char) (underscores : Bool) :
    Binary64.parseNumber neg body underscores = Binary64.syntaxError ∨
      (Binary64.parseNumber neg body underscores).2 ≠ some .ErrSyntax := by
  unfold Binary64.parseNumber
  simp only
  split_ifs
  all_goals first
    | exact Or.inl rfl
    | (split <;> first
        | exact Or.inl rfl
        | exact Or.inr (Binary64.withRange_wellformed _))

/-- A syntax error of the binary64 `ParseFloat` comes with the value 0. -/
theorem Binary64.ParseFloat_malformed (s : String)
    (h : (Binary64.ParseFloat s).2 = some .ErrSyntax) :
    (Binary64.ParseFloat s).1 = .finite false 0 (-1074) := by
  unfold Binary64.ParseFloat at *
  split at h
  · simp at h
  · rcases Binary64.parseNumber_cases (decide (s.data.head? = some '-')) (afterSign s.data)
      (!s.data.contains '_' || Binary64.underscoreOK s.data) with h1 | h1
    · rw [h1]; rfl
    · exact absurd h h1

/-- Every returned record is the record of its own date, and that date is in the window
and is not skipped. -/
theorem mem_data (timeSeries : TimeSeries F) (nDays : Int) (dates : List String)
    (r : TimeSeriesData F)
    (hr : r ∈ ((window nDays dates).filter (closeParses timeSeries)).map (recordOf timeSeries)) :
    r = recordOf timeSeries r.Date ∧ r.Date ∈ window nDays dates ∧
      closeParses timeSeries r.Date = true := by
  obtain ⟨d, hd, rfl⟩ := List.mem_map.1 hr
  exact ⟨rfl, (List.mem_filter.1 hd).1, (List.mem_filter.1 hd).2⟩

/-- C5, counterexample: the close of the day parses, its open price `"1e999"` and its
volume `"9223372036854775808"` are unparsable (both parsers return a range error), and the
emitted record holds +Inf and the largest `int64` for them, not 0. -/
theorem c5_counterexample :
    (Float64.ParseFloat (F := Binary64) (fieldStr outOfRangeDay "2025-01-15" "1. open")).2 =
        some .ErrRange ∧
      (ParseInt (fieldStr outOfRangeDay "2025-01-15" "5. volume")).2 = some .ErrRange ∧
      processTimeSeries outOfRangeDay 1 ["2025-01-15"] =
        .done ([{ Date := "2025-01-15"
                  OpenPrice := .inf false
                  HighPrice := (Binary64.ParseFloat "236.80").1
                  LowPrice := (Binary64.ParseFloat "233.20").1
                  ClosePrice := (Binary64.ParseFloat "235.60").1
                  Volume := 9223372036854775807 }], (Binary64.ParseFloat "235.60").1) ∧
      Binary64.inf false ≠ Float64.zero ∧ (9223372036854775807 : Int) ≠ 0 := by
  decide!

theorem assertString_not_ok {G : Type} (v : JSONValue G) (h : v.assertString.2 = false) :
    v.assertString.1 = "" := by
  cases v <;> simp_all [JSONValue.assertString]

/-- C5 (non-close fields, amended): for every visited date whose close parses the record is
emitted; each of its open, high, low and volume fields holds the value that `ParseFloat`
resp. `ParseInt` returns for the string of the field (the empty string when the field is
missing or not a string), whatever error comes with it; and that value is 0 when the field
is missing, not a string, or syntactically malformed. `hmalformed` and `hempty` are the
contract of `strconv.ParseFloat` for malformed strings. -/
theorem c5_fields_default_zero (timeSeries : TimeSeries F) (nDays : Int) (dates : List String)
    (date : String)
    (hmalformed : ∀ s, (Float64.ParseFloat (F := F) s).2 = some .ErrSyntax →
      (Float64.ParseFloat (F := F) s).1 = Float64.zero)
    (hempty : (Float64.ParseFloat (F := F) "").2 = some .ErrSyntax)
    (hvis : date ∈ window nDays dates) (hclose : closeParses timeSeries date = true) :
    ∃ data avg, processTimeSeries timeSeries nDays dates = .done (data, avg) ∧
      (∃ r ∈ data, r.Date = date) ∧
      ∀ r ∈ data, r.Date = date →
        r.OpenPrice = (Float64.ParseFloat (fieldStr timeSeries date "1. open")).1 ∧
        r.HighPrice = (Float64.ParseFloat (fieldStr timeSeries date "2. high")).1 ∧
        r.LowPrice = (Float64.ParseFloat (fieldStr timeSeries date "3. low")).1 ∧
        r.Volume = (ParseInt (fieldStr timeSeries date "5. volume")).1 ∧
        (malformedFloat timeSeries date "1. open" → r.OpenPrice = Float64.zero) ∧
        (malformedFloat timeSeries date "2. high" → r.HighPrice = Float64.zero) ∧
        (malformedFloat timeSeries date "3. low" → r.LowPrice = Float64.zero) ∧
        (malformedInt timeSeries date "5. volume" → r.Volume = 0) := by
  have hfloat : ∀ label, malformedFloat timeSeries date label →
      (Float64.ParseFloat (F := F) (fieldStr timeSeries date label)).1 = Float64.zero := by
    intro label h
    rcases h with h | h
    · have h1 : fieldStr timeSeries date label = "" := assertString_not_ok _ h
      rw [h1]
      exact hmalformed "" hempty
    · exact hmalformed _ h
  have hint : ∀ label, malformedInt timeSeries date label →
      (ParseInt (fieldStr timeSeries date label)).1 = 0 := by
    intro label h
    rcases h with h | h
    · have h1 : fieldStr timeSeries date label = "" := assertString_not_ok _ h
      rw [h1]
      rfl
    · exact ParseInt_malformed _ h
  refine ⟨_, _, processTimeSeries_eq timeSeries nDays dates, ?_, ?_⟩
  · exact ⟨recordOf timeSeries date,
      List.mem_map.2 ⟨date, List.mem_filter.2 ⟨hvis, hclose⟩, rfl⟩, rfl⟩
  · intro r hr hd
    have hrec := (mem_data timeSeries nDays dates r hr).1
    rw [hd] at hrec
    subst hrec
    exact ⟨rfl, rfl, rfl, rfl, hfloat _, hfloat _, hfloat _, hint _⟩

/-- C5, witness: a day whose open is a number instead of a string, whose high is `"n/a"`,
whose low is missing and whose volume is `"12x"`. -/
theorem c5_fields_default_zero_witness :
    ∃ data avg, processTimeSeries sparseDay 1 ["2025-01-15"] = .done (data, avg) ∧
      (∃ r ∈ data, r.Date = "2025-01-15") ∧
      ∀ r ∈ data, r.Date = "2025-01-15" →
        r.OpenPrice = (Float64.ParseFloat (fieldStr sparseDay "2025-01-15" "1. open")).1 ∧
        r.HighPrice = (Float64.ParseFloat (fieldStr sparseDay "2025-01-15" "2. high")).1 ∧
        r.LowPrice = (Float64.ParseFloat (fieldStr sparseDay "2025-01-15" "3. low")).1 ∧
        r.Volume = (ParseInt (fieldStr sparseDay "2025-01-15" "5. volume")).1 ∧
        (malformedFloat sparseDay "2025-01-15" "1. open" → r.OpenPrice = Float64.zero) ∧
        (malformedFloat sparseDay "2025-01-15" "2. high" → r.HighPrice = Float64.zero) ∧
        (malformedFloat sparseDay "2025-01-15" "3. low" → r.LowPrice = Float64.zero) ∧
        (malformedInt sparseDay "2025-01-15" "5. volume" → r.Volume = 0) :=
  c5_fields_default_zero sparseDay 1 ["2025-01-15"] "2025-01-15" Binary64.ParseFloat_malformed
    (by decide!) (by decide) (by decide!)

/-- C6 (record contents): for a visited date whose five fields are strings and whose close
`ParseFloat` accepts (so in particular when all five are well-formed numeric strings), the
returned record of that date has the key as `Date`, the `ParseFloat` values of the open,
high, low and close fields and the `ParseInt` value of the volume field; and the single
entry of the test `Single day` with `nDays = 1` yields exactly that one record and the
average 235.60. -/
theorem c6_record_contents (timeSeries : TimeSeries F) (nDays : Int) (dates : List String)
    (date so sh sl sc sv : String) (hvis : date ∈ window nDays dates)
    (ho : GoMap.get .null (GoMap.get none timeSeries date) "1. open" = .string so)
    (hh : GoMap.get .null (GoMap.get none timeSeries date) "2. high" = .string sh)
    (hl : GoMap.get .null (GoMap.get none timeSeries date) "3. low" = .string sl)
    (hc : GoMap.get .null (GoMap.get none timeSeries date) "4. close" = .string sc)
    (hv : GoMap.get .null (GoMap.get none timeSeries date) "5. volume" = .string sv)
    (pc : (Float64.ParseFloat (F := F) sc).2 = none) :
    (∃ data avg, processTimeSeries timeSeries nDays dates = .done (data, avg) ∧
      (∃ r ∈ data, r.Date = date) ∧
      ∀ r ∈ data, r.Date = date →
        r = { Date := date
              OpenPrice := (Float64.ParseFloat (F := F) so).1
              HighPrice := (Float64.ParseFloat (F := F) sh).1
              LowPrice := (Float64.ParseFloat (F := F) sl).1
              ClosePrice := (Float64.ParseFloat (F := F) sc).1
              Volume := (ParseInt sv).1 }) ∧
    processTimeSeries singleDay 1 ["2025-01-15"] =
      .done ([{ Date := "2025-01-15"
                OpenPrice := (Binary64.ParseFloat "234.50").1
                HighPrice := (Binary64.ParseFloat "236.80").1
                LowPrice := (Binary64.ParseFloat "233.20").1
                ClosePrice := (Binary64.ParseFloat "235.60").1
                Volume := 45000000 }], (Binary64.ParseFloat "235.60").1) := by
  have hclose : closeParses timeSeries date = true := by
    unfold closeParses
    simp [hc, JSONValue.assertString, pc]
  have hrec : recordOf timeSeries date =
      { Date := date
        OpenPrice := (Float64.ParseFloat (F := F) so).1
        HighPrice := (Float64.ParseFloat (F := F) sh).1
        LowPrice := (Float64.ParseFloat (F := F) sl).1
        ClosePrice := (Float64.ParseFloat (F := F) sc).1
        Volume := (ParseInt sv).1 } := by
    unfold recordOf fieldStr
    simp [ho, hh, hl, hc, hv, JSONValue.assertString]
  refine ⟨⟨_, _, processTimeSeries_eq timeSeries nDays dates, ?_, ?_⟩, by decide!⟩
  · exact ⟨recordOf timeSeries date,
      List.mem_map.2 ⟨date, List.mem_filter.2 ⟨hvis, hclose⟩, rfl⟩, rfl⟩
  · intro r hr hd
    have h1 := (mem_data timeSeries nDays dates r hr).1
    rw [hd] at h1
    rw [h1, hrec]

/-- C6, witness: the day of the test `Single day`, visited with `nDays = 1`. -/
theorem c6_record_contents_witness :
    ∃ data avg, processTimeSeries singleDay 1 ["2025-01-15"] = .done (data, avg) ∧
      (∃ r ∈ data, r.Date = "2025-01-15") ∧
      ∀ r ∈ data, r.Date = "2025-01-15" →
        r = { Date := "2025-01-15"
              OpenPrice := (Float64.ParseFloat (F := Binary64) "234.50").1
              HighPrice := (Float64.ParseFloat (F := Binary64) "236.80").1
              LowPrice := (Float64.ParseFloat (F := Binary64) "233.20").1
              ClosePrice := (Float64.ParseFloat (F := Binary64) "235.60").1
              Volume := (ParseInt "45000000").1 } :=
  (c6_record_contents singleDay 1 ["2025-01-15"] "2025-01-15" "234.50" "236.80" "233.20"
    "235.60" "45000000" (by decide) rfl rfl rfl rfl rfl (by decide!)).1

/-- What `fetchStockData` returns once `Get` has returned a response without error and the
body has been decoded. -/
theorem fetchStockData_decoded (rt : Runtime F) (symbol : String) (nDays : Int) (apiKey : String)
    (client : HTTPClient) (resp : Response) (avResp : AlphaVantageResponse F)
    (hget : client.Get (apiURL apiKey symbol) = (some resp, none))
    (hdec : rt.Decode resp.Body = .ok avResp) :
    (fetchStockData rt symbol nDays apiKey client).1 =
      if avResp.TimeSeries.isNone then
        .done { data := [], avgClose := Float64.zero
                err := some ⟨"no time series data returned"⟩ }
      else
        match processTimeSeries avResp.TimeSeries nDays (rt.rangeKeys avResp.TimeSeries) with
        | .done r => .done { data := r.1, avgClose := r.2, err := none }
        | .indexOutOfRange => .indexOutOfRange
        | .nilDereference => .nilDereference
        | .outOfFuel => .outOfFuel := by
  unfold fetchStockData
  simp only [hget, hdec]
  split
  · rfl
  · split <;> rfl

/-- C8 (all closes unparsable is not a failure): for a non-nil mapping in which no date's
close parses, `processTimeSeries` returns no records and the average 0 for every `nDays`
and every enumeration, and `fetchStockData` on a response that decodes to this mapping
returns no data, the average 0 and a nil error. -/
theorem c8_all_unparsable (rt : Runtime F) (symbol : String) (nDays : Int) (apiKey : String)
    (client : HTTPClient) (resp : Response) (avResp : AlphaVantageResponse F)
    (hget : client.Get (apiURL apiKey symbol) = (some resp, none))
    (hdec : rt.Decode resp.Body = .ok avResp)
    (hnonnil : avResp.TimeSeries.isNone = false)
    (henum : IsEnumeration avResp.TimeSeries (rt.rangeKeys avResp.TimeSeries))
    (hall : ∀ d ∈ GoMap.keys avResp.TimeSeries, closeParses avResp.TimeSeries d = false) :
    (∀ (n : Int) (dates : List String), IsEnumeration avResp.TimeSeries dates →
      processTimeSeries avResp.TimeSeries n dates = .done ([], Float64.zero)) ∧
    (fetchStockData rt symbol nDays apiKey client).1 =
      .done { data := [], avgClose := Float64.zero, err := none } := by
  have hproc : ∀ (n : Int) (dates : List String), IsEnumeration avResp.TimeSeries dates →
      processTimeSeries avResp.TimeSeries n dates = .done ([], Float64.zero) := by
    intro n dates hd
    have hnone : (window n dates).filter (closeParses avResp.TimeSeries) = [] := by
      apply List.filter_eq_nil_iff.2
      intro d hmem
      rw [hall d (hd.subset (List.mem_of_mem_take hmem))]
      simp
    rw [processTimeSeries_eq, hnone]
    rfl
  refine ⟨hproc, ?_⟩
  rw [fetchStockData_decoded rt symbol nDays apiKey client resp avResp hget hdec, hnonnil,
    hproc nDays _ henum]
  rfl

/-- C8, witness: the test `Invalid close price format`. -/
theorem c8_all_unparsable_witness :
    (∀ (n : Int) (dates : List String), IsEnumeration invalidCloseResponse.TimeSeries dates →
      processTimeSeries invalidCloseResponse.TimeSeries n dates = .done ([], Float64.zero)) ∧
    (fetchStockData (fixedRuntime invalidCloseResponse) "AAPL" 1 "test-api-key"
      (fixedClient (some ⟨200, ""⟩, none))).1 =
      .done { data := [], avgClose := Float64.zero, err := none } :=
  c8_all_unparsable (fixedRuntime invalidCloseResponse) "AAPL" 1 "test-api-key"
    (fixedClient (some ⟨200, ""⟩, none)) ⟨200, ""⟩ invalidCloseResponse rfl rfl rfl
    (List.Perm.refl _) (by decide!)

/-- C9 (no-data error): when `Get` returns a response whose body decodes, `fetchStockData`
returns no data, the average 0 and the error `no time series data returned` exactly when
the decoded `Time Series (Daily)` is nil; when it is not nil (even if empty), it returns the
result of `processTimeSeries` and a nil error. In the nil case the handler answers a GET
request with status 500 and the body
`Error fetching stock data: no time series data returned` and a newline. -/
theorem c9_no_data (rt : Runtime F) (config : Config) (client : HTTPClient) (resp : Response)
    (avResp : AlphaVantageResponse F) (r : Request)
    (hget : client.Get (apiURL config.APIKey config.Symbol) = (some resp, none))
    (hdec : rt.Decode resp.Body = .ok avResp) (hmethod : r.Method = "GET") :
    (avResp.TimeSeries.isNone = true →
      (fetchStockData rt config.Symbol config.NDays config.APIKey client).1 =
          .done { data := [], avgClose := Float64.zero
                  err := some ⟨"no time series data returned"⟩ } ∧
        (createHandler rt config client r).1 =
          .done { Code := 500
                  Header := [("Content-Type", "text/plain; charset=utf-8"),
                    ("X-Content-Type-Options", "nosniff")]
                  Body := "Error fetching stock data: " ++ "no time series data returned" ++
                    "\n" }) ∧
    (avResp.TimeSeries.isNone = false →
      ∃ data avg,
        processTimeSeries avResp.TimeSeries config.NDays (rt.rangeKeys avResp.TimeSeries) =
          .done (data, avg) ∧
        (fetchStockData rt config.Symbol config.NDays config.APIKey client).1 =
          .done { data := data, avgClose := avg, err := none }) ∧
    (((fetchStockData rt config.Symbol config.NDays config.APIKey client).1 =
        .done { data := [], avgClose := Float64.zero
                err := some ⟨"no time series data returned"⟩ }) ↔
      avResp.TimeSeries.isNone = true) := by
  have hfetch := fetchStockData_decoded rt config.Symbol config.NDays config.APIKey client resp
    avResp hget hdec
  have hnil : avResp.TimeSeries.isNone = true →
      (fetchStockData rt config.Symbol config.NDays config.APIKey client).1 =
        .done { data := [], avgClose := Float64.zero
                err := some ⟨"no time series data returned"⟩ } := by
    intro h
    rw [hfetch, if_pos h]
  have hsome : avResp.TimeSeries.isNone = false →
      ∃ data avg,
        processTimeSeries avResp.TimeSeries config.NDays (rt.rangeKeys avResp.TimeSeries) =
          .done (data, avg) ∧
        (fetchStockData rt config.Symbol config.NDays config.APIKey client).1 =
          .done { data := data, avgClose := avg, err := none } := by
    intro h
    refine ⟨_, _, processTimeSeries_eq _ _ _, ?_⟩
    rw [hfetch, h, processTimeSeries_eq]
    rfl
  refine ⟨fun h => ⟨hnil h, ?_⟩, hsome, ?_, hnil⟩
  · have h1 := hnil h
    unfold createHandler
    rw [if_neg (by simp [hmethod])]
    generalize fetchStockData rt config.Symbol config.NDays config.APIKey client = x at h1
    obtain ⟨x1, x2⟩ := x
    simp only at h1
    subst h1
    rfl
  · intro h
    cases hn : avResp.TimeSeries.isNone
    · obtain ⟨data, avg, _, hf⟩ := hsome hn
      rw [hf] at h
      simp at h
    · rfl

/-- C9, witness: the test `No time series data`. -/
theorem c9_no_data_witness :
    (fetchStockData (fixedRuntime noData) testConfig.Symbol testConfig.NDays testConfig.APIKey
        (fixedClient (some ⟨200, ""⟩, none))).1 =
      .done { data := [], avgClose := Float64.zero
              err := some ⟨"no time series data returned"⟩ } ∧
    (createHandler (fixedRuntime noData) testConfig (fixedClient (some ⟨200, ""⟩, none))
        getRequest).1 =
      .done { Code := 500
              Header := [("Content-Type", "text/plain; charset=utf-8"),
                ("X-Content-Type-Options", "nosniff")]
              Body := "Error fetching stock data: " ++ "no time series data returned" ++
                "\n" } :=
  (c9_no_data (fixedRuntime noData) testConfig (fixedClient (some ⟨200, ""⟩, none)) ⟨200, ""⟩
    noData getRequest rfl rfl rfl).1 rfl

/-- C10 (transport failure, no retry): if `Get` returns an error, whatever response comes
with it, `fetchStockData` returns no data, the average 0 and that same error, and the only
event of the call is the one `Get` for the URL: no second `Get`, no read or decode of a
body. -/
theorem c10_transport_failure (rt : Runtime F) (symbol : String) (nDays : Int)
    (apiKey : String) (client : HTTPClient) (resp : Option Response) (e : GoError)
    (hget : client.Get (apiURL apiKey symbol) = (resp, some e)) :
    fetchStockData rt symbol nDays apiKey client =
      (.done { data := [], avgClose := Float64.zero, err := some e },
        [.Get (apiURL apiKey symbol)]) := by
  unfold fetchStockData
  simp only [hget]

/-- C10, witness: the test `HTTP error`. -/
theorem c10_transport_failure_witness :
    fetchStockData (fixedRuntime noData) "AAPL" 1 "test-api-key"
        (fixedClient (none, some ⟨"mock HTTP error"⟩)) =
      (.done { data := [], avgClose := Float64.zero, err := some ⟨"mock HTTP error"⟩ },
        [.Get (apiURL "test-api-key" "AAPL")]) :=
  c10_transport_failure (fixedRuntime noData) "AAPL" 1 "test-api-key"
    (fixedClient (none, some ⟨"mock HTTP error"⟩)) none ⟨"mock HTTP error"⟩ rfl

/-- C11 (decode failure): when `Get` succeeds and decoding the body fails with `d`,
`fetchStockData` returns no data, the average 0 and the error
`error decoding response: ` followed by the message of `d`, after one `Get`, one decode and
the deferred close. The result is the same for every `nDays` and every enumeration order:
`processTimeSeries` takes no part in it. -/
theorem c11_decode_failure (rt : Runtime F) (symbol : String) (nDays : Int) (apiKey : String)
    (client : HTTPClient) (resp : Response) (d : GoError)
    (hget : client.Get (apiURL apiKey symbol) = (some resp, none))
    (hdec : rt.Decode resp.Body = .error d) :
    fetchStockData rt symbol nDays apiKey client =
        (.done { data := [], avgClose := Float64.zero
                 err := some ⟨"error decoding response: " ++ d.msg⟩ },
          [.Get (apiURL apiKey symbol), .Decode resp.Body, .Close]) ∧
      ∀ (n : Int) (order : TimeSeries F → List String),
        fetchStockData { rt with rangeKeys := order } symbol n apiKey client =
          fetchStockData rt symbol nDays apiKey client := by
  have h : ∀ (n : Int) (order : TimeSeries F → List String),
      fetchStockData { rt with rangeKeys := order } symbol n apiKey client =
        (.done { data := [], avgClose := Float64.zero
                 err := some ⟨"error decoding response: " ++ d.msg⟩ },
          [.Get (apiURL apiKey symbol), .Decode resp.Body, .Close]) := by
    intro n order
    unfold fetchStockData
    simp only [hget, hdec]
  have h0 := h nDays rt.rangeKeys
  refine ⟨h0, fun n order => ?_⟩
  rw [h n order]
  exact h0.symm

/-- C11, witness: the test `Invalid response format`. -/
theorem c11_decode_failure_witness :
    fetchStockData { fixedRuntime noData with Decode := fun _ => .error ⟨"invalid character"⟩ }
        "AAPL" 1 "dummy-api-key" (fixedClient (some ⟨200, "{invalid json}"⟩, none)) =
      (.done { data := [], avgClose := Float64.zero
               err := some ⟨"error decoding response: " ++ "invalid character"⟩ },
        [.Get (apiURL "dummy-api-key" "AAPL"), .Decode "{invalid json}", .Close]) :=
  (c11_decode_failure { fixedRuntime noData with Decode := fun _ => .error ⟨"invalid character"⟩ }
    "AAPL" 1 "dummy-api-key" (fixedClient (some ⟨200, "{invalid json}"⟩, none))
    ⟨200, "{invalid json}"⟩ ⟨"invalid character"⟩ rfl rfl).1

/-- C12 (method gate): for every request whose method is not exactly `GET`, whatever its
body and headers and whatever the client, the handler answers with status 405 and the body
that `http.Error` writes for the message `Method not allowed` (the message and a newline),
and causes no event: the client's `Get` is not called. -/
theorem c12_method_gate (rt : Runtime F) (config : Config) (client : HTTPClient) (r : Request)
    (hmethod : r.Method ≠ "GET") :
    createHandler rt config client r =
      (.done { Code := 405
               Header := [("Content-Type", "text/plain; charset=utf-8"),
                 ("X-Content-Type-Options", "nosniff")]
               Body := "Method not allowed" ++ "\n" }, []) := by
  unfold createHandler
  rw [if_pos hmethod]
  rfl

/-- C12, witness: a POST request with a body, to a handler whose client would fault if it
were called. -/
theorem c12_method_gate_witness :
    createHandler (fixedRuntime noData) testConfig (fixedClient (none, none))
        { Method := "POST", Header := [("Content-Type", "application/json")], Body := "x" } =
      (.done { Code := 405
               Header := [("Content-Type", "text/plain; charset=utf-8"),
                 ("X-Content-Type-Options", "nosniff")]
               Body := "Method not allowed" ++ "\n" }, []) :=
  c12_method_gate (fixedRuntime noData) testConfig (fixedClient (none, none))
    { Method := "POST", Header := [("Content-Type", "application/json")], Body := "x" }
    (by decide)

/-- C13 (failure response): for every GET request, if `fetchStockData` returns the error
`e`, the handler answers with status 500, a plain-text content type and the body
`Error fetching stock data: ` followed by the message of `e` (and the newline of
`http.Error`); nothing else is written, and the JSON encoder plays no part in the answer. -/
theorem c13_failure_response (rt : Runtime F) (config : Config) (client : HTTPClient)
    (r : Request) (f : Fetched F) (evs : List Event) (e : GoError)
    (hmethod : r.Method = "GET")
    (hfetch : fetchStockData rt config.Symbol config.NDays config.APIKey client = (.done f, evs))
    (herr : f.err = some e) :
    createHandler rt config client r =
        (.done { Code := 500
                 Header := [("Content-Type", "text/plain; charset=utf-8"),
                   ("X-Content-Type-Options", "nosniff")]
                 Body := "Error fetching stock data: " ++ e.msg ++ "\n" }, evs) ∧
      ∀ encode : StockResponse F → Except GoError String,
        createHandler { rt with Encode := encode } config client r =
          createHandler rt config client r := by
  have hfetch2 : ∀ encode : StockResponse F → Except GoError String,
      fetchStockData { rt with Encode := encode } config.Symbol config.NDays config.APIKey client =
        (.done f, evs) := by
    intro encode
    rw [← hfetch]
    rfl
  have h : ∀ encode : StockResponse F → Except GoError String,
      createHandler { rt with Encode := encode } config client r =
        (.done { Code := 500
                 Header := [("Content-Type", "text/plain; charset=utf-8"),
                   ("X-Content-Type-Options", "nosniff")]
                 Body := "Error fetching stock data: " ++ e.msg ++ "\n" }, evs) := by
    intro encode
    unfold createHandler
    rw [if_neg (by simp [hmethod]), hfetch2 encode]
    simp only [herr]
    rfl
  have h0 := h rt.Encode
  exact ⟨h0, fun encode => (h encode).trans h0.symm⟩

/-- C13, witness: the test `Error fetching stock data`. -/
theorem c13_failure_response_witness :
    createHandler (fixedRuntime noData) testConfig
        (fixedClient (none, some ⟨"network error"⟩)) getRequest =
      (.done { Code := 500
               Header := [("Content-Type", "text/plain; charset=utf-8"),
                 ("X-Content-Type-Options", "nosniff")]
               Body := "Error fetching stock data: " ++ "network error" ++ "\n" },
        [.Get (apiURL "test-api-key" "AAPL")]) :=
  (c13_failure_response (fixedRuntime noData) testConfig
    (fixedClient (none, some ⟨"network error"⟩)) getRequest
    { data := [], avgClose := Float64.zero, err := some ⟨"network error"⟩ }
    [.Get (apiURL "test-api-key" "AAPL")] ⟨"network error"⟩ rfl rfl rfl).1

/-- C15 (outbound URL): let `url` be the fixed text with the key and the symbol verbatim,
`https://www.alphavantage.co/query?apikey=` ++ apiKey ++ `&function=TIME_SERIES_DAILY&symbol=`
++ symbol. What `fetchStockData` returns and does depends on the client through the answer
of `Get` at `url` alone: two clients that agree at `url` give the same result for every
`nDays`, however they differ at other URLs. That answer is used: an error returned by `Get`
at `url` is the error returned. The calls of `Get` are exactly one, with `url`, in which
`nDays` does not occur. -/
theorem c15_outbound_url (rt : Runtime F) (symbol : String) (nDays : Int) (apiKey : String)
    (url : String) (client client' : HTTPClient)
    (hurl : url = "https://www.alphavantage.co/query?apikey=" ++ apiKey ++
      "&function=TIME_SERIES_DAILY&symbol=" ++ symbol)
    (hget : client.Get url = client'.Get url) :
    (∀ n : Int, fetchStockData rt symbol n apiKey client =
        fetchStockData rt symbol n apiKey client') ∧
      (∀ (resp : Option Response) (e : GoError), client.Get url = (resp, some e) →
        (fetchStockData rt symbol nDays apiKey client).1 =
          .done { data := [], avgClose := Float64.zero, err := some e }) ∧
      (fetchStockData rt symbol nDays apiKey client).2.filter Event.isGet = [.Get url] := by
  subst hurl
  refine ⟨?_, ?_, ?_⟩
  · intro n
    unfold fetchStockData
    simp only [apiURL, hget]
  · intro resp e h
    unfold fetchStockData
    simp only [apiURL, h]
  · unfold fetchStockData
    simp only [apiURL]
    split
    · rfl
    · rfl
    · split
      · rfl
      · split
        · rfl
        · split <;> rfl

/-- C15, witness: the client of the test `HTTP error` and a client that gives the same
answer at the URL of the key `test-api-key` and the symbol `AAPL` but differs from it at
another URL. -/
theorem c15_outbound_url_witness :
    (fixedClient (none, some ⟨"mock HTTP error"⟩)).Get "https://example.com/" ≠
        (clientAt (apiURL "test-api-key" "AAPL") (none, some ⟨"mock HTTP error"⟩)).Get
          "https://example.com/" ∧
      (∀ n : Int,
        fetchStockData (fixedRuntime noData) "AAPL" n "test-api-key"
            (fixedClient (none, some ⟨"mock HTTP error"⟩)) =
          fetchStockData (fixedRuntime noData) "AAPL" n "test-api-key"
            (clientAt (apiURL "test-api-key" "AAPL") (none, some ⟨"mock HTTP error"⟩))) ∧
      (fetchStockData (fixedRuntime noData) "AAPL" 1 "test-api-key"
          (fixedClient (none, some ⟨"mock HTTP error"⟩))).1 =
        .done { data := [], avgClose := Float64.zero, err := some ⟨"mock HTTP error"⟩ } ∧
      (fetchStockData (fixedRuntime noData) "AAPL" 1 "test-api-key"
          (fixedClient (none, some ⟨"mock HTTP error"⟩))).2.filter Event.isGet =
        [.Get "https://www.alphavantage.co/query?apikey=test-api-key&function=TIME_SERIES_DAILY&symbol=AAPL"] :=
  have h := c15_outbound_url (fixedRuntime noData) "AAPL" 1 "test-api-key"
    "https://www.alphavantage.co/query?apikey=test-api-key&function=TIME_SERIES_DAILY&symbol=AAPL"
    (fixedClient (none, some ⟨"mock HTTP error"⟩))
    (clientAt (apiURL "test-api-key" "AAPL") (none, some ⟨"mock HTTP error"⟩))
    (by decide) (by decide)
  ⟨by decide, h.1, h.2.1 none ⟨"mock HTTP error"⟩ rfl, h.2.2⟩

/-- C17 (selection by enumeration order): the mapping of the test `Multiple days` has two
dates; with `nDays = 1` the enumeration that yields 2025-01-15 first returns that date and
the enumeration that yields 2025-01-14 first returns 2025-01-14, which is not the most
recent date. No chronological sort takes place. -/
theorem c17_enumeration_order :
    IsEnumeration twoDays ["2025-01-15", "2025-01-14"] ∧
      IsEnumeration twoDays ["2025-01-14", "2025-01-15"] ∧
      (1 : Int) < (twoDays.len : Int) ∧ "2025-01-14".data < "2025-01-15".data ∧
      ∃ data1 avg1 data2 avg2,
        processTimeSeries twoDays 1 ["2025-01-15", "2025-01-14"] = .done (data1, avg1) ∧
        processTimeSeries twoDays 1 ["2025-01-14", "2025-01-15"] = .done (data2, avg2) ∧
        data1.map TimeSeriesData.Date = ["2025-01-15"] ∧
        data2.map TimeSeriesData.Date = ["2025-01-14"] := by
  refine ⟨List.Perm.refl _, List.Perm.swap _ _ _, by decide, by decide, _, _, _, _,
    processTimeSeries_eq _ _ _, processTimeSeries_eq _ _ _, ?_, ?_⟩
  · decide!
  · decide!

theorem loop_eq_loopLimitOnly (timeSeries : TimeSeries F) (dates : List String) (limit : Int)
    (hlimit : limit ≤ (dates.length : Int)) :
    ∀ (fuel i : Nat) (st : Acc F),
      loop timeSeries dates limit fuel i st = loopLimitOnly timeSeries dates limit fuel i st := by
  intro fuel
  induction fuel with
  | zero => intro i st; rfl
  | succ fuel ih =>
    intro i st
    unfold loop loopLimitOnly
    by_cases hc : (i : Int) < limit
    · rw [if_pos ⟨hc, by omega⟩, if_pos hc]
      split
      · rfl
      · exact ih _ _
    · rw [if_neg (fun h => hc h.1), if_neg hc]

theorem limitOf_le (nDays : Int) (dates : List String) :
    limitOf nDays dates ≤ (dates.length : Int) := by
  unfold limitOf
  split <;> omega

/-- The function `processTimeSeries` runs its loop with the limit `limitOf`. -/
theorem processTimeSeries_limitOf (timeSeries : TimeSeries F) (nDays : Int)
    (dates : List String) :
    processTimeSeries timeSeries nDays dates =
      match loop timeSeries dates (limitOf nDays dates) (dates.length + 1) 0
          { data := [], totalClose := Float64.zero } with
      | .done st =>
        .done (st.data,
          if st.data.length > 0 then
            Float64.div st.totalClose (Float64.ofInt (st.data.length : Int))
          else Float64.zero)
      | .indexOutOfRange => .indexOutOfRange
      | .nilDereference => .nilDereference
      | .outOfFuel => .outOfFuel := rfl

/-- C18 (totality and in-bounds indexing): for every mapping, every `nDays` and every list
of dates, `processTimeSeries` ends normally; the average is the zero value when no record
is returned and the result of the division by `float64(len(data))` only when `len(data)`
is not 0; every index for which the loop condition `i < limit` holds is below
`len(dates)`, so that the loop runs the same without the guard `i < len(dates)` and then
too ends normally, without an index out of range. -/
theorem c18_totality (timeSeries : TimeSeries F) (nDays : Int) (dates : List String) :
    (∃ data avg, processTimeSeries timeSeries nDays dates = .done (data, avg) ∧
      (data.length = 0 → avg = Float64.zero) ∧
      (data.length ≠ 0 → avg =
        Float64.div ((data.map TimeSeriesData.ClosePrice).foldl Float64.add Float64.zero)
          (Float64.ofInt (data.length : Int)))) ∧
    (∀ i : Nat, (i : Int) < limitOf nDays dates → i < dates.length) ∧
    (∀ (fuel i : Nat) (st : Acc F),
      loop timeSeries dates (limitOf nDays dates) fuel i st =
        loopLimitOnly timeSeries dates (limitOf nDays dates) fuel i st) ∧
    ∃ st, loopLimitOnly timeSeries dates (limitOf nDays dates) (dates.length + 1) 0
      { data := [], totalClose := Float64.zero } = .done st := by
  have hle := limitOf_le nDays dates
  refine ⟨?_, fun i hi => by omega, loop_eq_loopLimitOnly timeSeries dates _ hle, ?_⟩
  · refine ⟨_, _, processTimeSeries_eq timeSeries nDays dates, ?_, ?_⟩
    · intro h
      rw [if_neg (by omega)]
    · intro h
      rw [if_pos (by omega), List.map_map]
      rfl
  · rw [← loop_eq_loopLimitOnly timeSeries dates _ hle,
      loop_done timeSeries dates _ (dates.length + 1) 0 _ (by omega)]
    exact ⟨_, rfl⟩

theorem distinct_nodup (l : List String) : (GoMap.distinct l).Nodup := by
  induction l with
  | nil => exact List.nodup_nil
  | cons k ks ih =>
    unfold GoMap.distinct
    refine List.nodup_cons.2 ⟨?_, ih.filter _⟩
    intro h
    have := (List.mem_filter.1 h).2
    simp at this

theorem window_all (nDays : Int) (dates : List String) (h : (dates.length : Int) ≤ nDays) :
    window nDays dates = dates := by
  unfold window
  apply List.take_of_length_le
  omega

/-- C19 (order-independence when the window covers everything): for `nDays` at least the
number of dates, the records returned under any two enumerations of the keys are
permutations of each other, of the same length, and their dates are pairwise distinct. -/
theorem c19_order_independence (timeSeries : TimeSeries F) (nDays : Int)
    (dates1 dates2 : List String) (h1 : IsEnumeration timeSeries dates1)
    (h2 : IsEnumeration timeSeries dates2) (hn : (timeSeries.len : Int) ≤ nDays) :
    ∃ data1 avg1 data2 avg2,
      processTimeSeries timeSeries nDays dates1 = .done (data1, avg1) ∧
      processTimeSeries timeSeries nDays dates2 = .done (data2, avg2) ∧
      data1.Perm data2 ∧ data1.length = data2.length ∧
      (data1.map TimeSeriesData.Date).Nodup ∧ (data2.map TimeSeriesData.Date).Nodup := by
  have hl1 : dates1.length = timeSeries.len := h1.length_eq
  have hl2 : dates2.length = timeSeries.len := h2.length_eq
  have hw1 := window_all nDays dates1 (by omega)
  have hw2 := window_all nDays dates2 (by omega)
  have hperm : (((window nDays dates1).filter (closeParses timeSeries)).map
      (recordOf timeSeries)).Perm
      (((window nDays dates2).filter (closeParses timeSeries)).map (recordOf timeSeries)) := by
    rw [hw1, hw2]
    exact ((h1.trans h2.symm).filter _).map _
  have hnodup : ∀ dates, IsEnumeration timeSeries dates →
      ((((window nDays dates).filter (closeParses timeSeries)).map
        (recordOf timeSeries)).map TimeSeriesData.Date).Nodup := by
    intro dates hd
    rw [List.map_map]
    have hid : (TimeSeriesData.Date ∘ recordOf timeSeries) = id := rfl
    rw [hid, List.map_id]
    have hdn : dates.Nodup := hd.nodup_iff.2 (distinct_nodup _)
    exact ((hdn.sublist (List.take_sublist _ _)).filter _)
  exact ⟨_, _, _, _, processTimeSeries_eq _ _ _, processTimeSeries_eq _ _ _, hperm,
    hperm.length_eq, hnodup _ h1, hnodup _ h2⟩

/-- C19, witness: the two enumerations of the test `Multiple days` with `nDays = 2`. -/
theorem c19_order_independence_witness :
    ∃ data1 avg1 data2 avg2,
      processTimeSeries twoDays 2 ["2025-01-15", "2025-01-14"] = .done (data1, avg1) ∧
      processTimeSeries twoDays 2 ["2025-01-14", "2025-01-15"] = .done (data2, avg2) ∧
      data1.Perm data2 ∧ data1.length = data2.length ∧
      (data1.map TimeSeriesData.Date).Nodup ∧ (data2.map TimeSeriesData.Date).Nodup :=
  c19_order_independence twoDays 2 ["2025-01-15", "2025-01-14"] ["2025-01-14", "2025-01-15"]
    (List.Perm.refl _) (List.Perm.swap _ _ _) (by decide)

theorem foldl_digits_ge (cs : List Char) (n : Nat) :
    n ≤ cs.foldl (fun n c => n * 10 + (c.toNat - '0'.toNat)) n := by
  induction cs generalizing n with
  | nil => exact Nat.le_refl _
  | cons c cs ih =>
    rw [List.foldl_cons]
    exact Nat.le_trans (by omega) (ih _)

/-- The digit loop of `ParseUint` on digits only: the value, or the range error. -/
theorem parseUintLoop_digits (cs : List Char) :
    ∀ n : Nat, n ≤ maxUint64 → cs.all isDecimalDigit = true →
      parseUintLoop cs n =
        if cs.foldl (fun n c => n * 10 + (c.toNat - '0'.toNat)) n ≤ maxUint64 then
          (cs.foldl (fun n c => n * 10 + (c.toNat - '0'.toNat)) n, none)
        else (maxUint64, some .ErrRange) := by
  induction cs with
  | nil =>
    intro n hn _
    simp [parseUintLoop, hn]
  | cons c cs ih =>
    intro n hn hall
    rw [List.all_cons, Bool.and_eq_true] at hall
    have hc : '0' ≤ c ∧ c ≤ '9' := by simpa [isDecimalDigit] using hall.1
    have hmono := foldl_digits_ge cs (n * 10 + (c.toNat - '0'.toNat))
    unfold parseUintLoop
    rw [if_pos hc, List.foldl_cons]
    have hmax : maxUint64 = 18446744073709551615 := by norm_num [maxUint64]
    by_cases h1 : n ≥ maxUint64 / 10 + 1
    · rw [if_pos h1, if_neg]
      rw [hmax] at h1 ⊢
      omega
    · rw [if_neg h1]
      simp only
      by_cases h2 : n * 10 + (c.toNat - '0'.toNat) > maxUint64
      · rw [if_pos h2, if_neg]
        omega
      · rw [if_neg h2]
        exact ih _ (by omega) hall.2

/-- Whatever the digit loop returns with a nil error, it has read digits only; a range
error comes with the largest `uint64`. -/
theorem parseUintLoop_cases (cs : List Char) :
    ∀ n : Nat, ((parseUintLoop cs n).2 = none → cs.all isDecimalDigit = true) ∧
      ((parseUintLoop cs n).2 = some .ErrRange → (parseUintLoop cs n).1 = maxUint64) := by
  induction cs with
  | nil => intro n; simp [parseUintLoop]
  | cons c cs ih =>
    intro n
    unfold parseUintLoop
    by_cases hc : '0' ≤ c ∧ c ≤ '9'
    · rw [if_pos hc]
      by_cases h1 : n ≥ maxUint64 / 10 + 1
      · rw [if_pos h1]; simp
      · rw [if_neg h1]
        simp only
        by_cases h2 : n * 10 + (c.toNat - '0'.toNat) > maxUint64
        · rw [if_pos h2]; simp
        · rw [if_neg h2]
          refine ⟨fun h => ?_, (ih _).2⟩
          rw [List.all_cons, Bool.and_eq_true]
          exact ⟨by simpa [isDecimalDigit] using hc, (ih _).1 h⟩
    · rw [if_neg hc]; simp

theorem mk_eq_empty (ds : List Char) : ((⟨ds⟩ : String) = "") ↔ ds = [] := by
  constructor
  · intro h
    have := congrArg String.data h
    simpa using this
  · intro h
    rw [h]

/-- What `ParseUint` returns on a list of characters: the value of digits within `uint64`,
the range error with the largest `uint64`, or a syntax error. -/
theorem ParseUint_cases (ds : List Char) :
    (ds ≠ [] ∧ ds.all isDecimalDigit = true ∧ digitsValue ds ≤ maxUint64 ∧
        ParseUint ⟨ds⟩ = (digitsValue ds, none)) ∨
      (ds ≠ [] ∧ ds.all isDecimalDigit = true ∧ maxUint64 < digitsValue ds ∧
        ParseUint ⟨ds⟩ = (maxUint64, some .ErrRange)) ∨
      ((ds = [] ∨ ds.all isDecimalDigit = false) ∧
        ((ParseUint ⟨ds⟩).2 = some .ErrSyntax ∨
          ((ParseUint ⟨ds⟩).2 = some .ErrRange ∧ (ParseUint ⟨ds⟩).1 = maxUint64))) := by
  unfold ParseUint
  by_cases hds : ds = []
  · rw [if_pos ((mk_eq_empty ds).2 hds)]
    exact Or.inr (Or.inr ⟨Or.inl hds, Or.inl rfl⟩)
  · rw [if_neg (fun h => hds ((mk_eq_empty ds).1 h))]
    by_cases hall : ds.all isDecimalDigit = true
    · have h := parseUintLoop_digits ds 0 (Nat.zero_le _) hall
      by_cases hv : digitsValue ds ≤ maxUint64
      · refine Or.inl ⟨hds, hall, hv, ?_⟩
        rw [h]
        exact if_pos hv
      · refine Or.inr (Or.inl ⟨hds, hall, Nat.lt_of_not_le hv, ?_⟩)
        rw [h]
        exact if_neg hv
    · have hc := parseUintLoop_cases ds 0
      refine Or.inr (Or.inr ⟨Or.inr (by simpa using hall), ?_⟩)
      cases herr : (parseUintLoop ds 0).2 with
      | none => exact absurd (hc.1 herr) hall
      | some e =>
        cases e with
        | ErrSyntax => exact Or.inl rfl
        | ErrRange => exact Or.inr ⟨rfl, hc.2 herr⟩

/-- The integer a sign and a list of digits denote. -/
theorem intOfUint_ParseUint (neg : Bool) (ds : List Char) :
    ((intOfUint neg (ParseUint ⟨ds⟩)).2 = none ↔
      (ds ≠ [] ∧ ds.all isDecimalDigit = true ∧
        -(9223372036854775808 : Int) ≤ (if neg = true then -(digitsValue ds : Int)
          else (digitsValue ds : Int)) ∧
        (if neg = true then -(digitsValue ds : Int) else (digitsValue ds : Int)) ≤
          9223372036854775807)) ∧
    ((intOfUint neg (ParseUint ⟨ds⟩)).2 = none →
      (intOfUint neg (ParseUint ⟨ds⟩)).1 =
        if neg = true then -(digitsValue ds : Int) else (digitsValue ds : Int)) := by
  have hmax : maxUint64 = 18446744073709551615 := by norm_num [maxUint64]
  have h63 : (2 : Nat) ^ 63 = 9223372036854775808 := by norm_num
  have h63i : (2 : Int) ^ 63 = 9223372036854775808 := by norm_num
  rcases ParseUint_cases ds with ⟨h1, h2, h3, h4⟩ | ⟨h1, h2, h3, h4⟩ | ⟨h1, h2⟩
  · rw [h4]
    unfold intOfUint
    simp only [h63, h63i]
    cases neg <;> split_ifs <;> simp_all <;> omega
  · rw [h4]
    unfold intOfUint
    simp only [h63, h63i, hmax] at *
    cases neg <;> split_ifs <;> simp_all <;> omega
  · have hfalse : ¬ (ds ≠ [] ∧ ds.all isDecimalDigit = true ∧
        -(9223372036854775808 : Int) ≤ (if neg = true then -(digitsValue ds : Int)
          else (digitsValue ds : Int)) ∧
        (if neg = true then -(digitsValue ds : Int) else (digitsValue ds : Int)) ≤
          9223372036854775807) := by
      rintro ⟨h3, h4, _⟩
      rcases h1 with h1 | h1
      · exact h3 h1
      · rw [h4] at h1; exact absurd h1 (by decide)
    have herr : (intOfUint neg (ParseUint ⟨ds⟩)).2 ≠ none := by
      generalize ParseUint ⟨ds⟩ = r at h2
      unfold intOfUint
      simp only [h63, hmax] at *
      rcases h2 with h2 | ⟨h2, h3⟩
      · rw [if_pos h2]; simp
      · rw [if_neg (by rw [h2]; simp)]
        cases neg <;> split_ifs <;> simp_all
    exact ⟨⟨fun h => absurd h herr, fun h => absurd h hfalse⟩, fun h => absurd h herr⟩

/-- `ParseInt` returns a nil error exactly for the decimal integers in the range of `int64`,
and then their value. -/
theorem ParseInt_ok (s : String) :
    ((ParseInt s).2 = none ↔
      (isDecimalInteger s = true ∧ -(9223372036854775808 : Int) ≤ decimalValue s ∧
        decimalValue s ≤ 9223372036854775807)) ∧
    ((ParseInt s).2 = none → (ParseInt s).1 = decimalValue s) := by
  by_cases hs : s = ""
  · subst hs
    simp [ParseInt, isDecimalInteger, afterSign]
  · have h := intOfUint_ParseUint (decide (s.data.head? = some '-')) (afterSign s.data)
    unfold ParseInt
    rw [if_neg hs]
    unfold isDecimalInteger decimalValue
    simp only [decide_eq_true_eq] at h
    refine ⟨?_, h.2⟩
    rw [h.1]
    cases hds : afterSign s.data <;> simp

/-- C16, counterexample: `NDAYS` is the decimal integer 9223372036854775808 and the other
two variables are set, yet `loadConfig` returns an error: the number does not fit an
`int`. -/
theorem c16_counterexample :
    envOf "AAPL" "9223372036854775808" "key" "SYMBOL" ≠ "" ∧
      envOf "AAPL" "9223372036854775808" "key" "NDAYS" ≠ "" ∧
      isDecimalInteger (envOf "AAPL" "9223372036854775808" "key" "NDAYS") = true ∧
      envOf "AAPL" "9223372036854775808" "key" "APIKEY" ≠ "" ∧
      loadConfig (envOf "AAPL" "9223372036854775808" "key") plainQuote =
        .error ⟨"Invalid NDAYS value: strconv.Atoi: parsing " ++
          "\"9223372036854775808\"" ++ ": value out of range"⟩ :=
  ⟨by decide, by decide, by decide, by decide, rfl⟩

/-- C16 (configuration loading, amended): `loadConfig` returns an error and no config if
and only if `SYMBOL` is empty or unset, or `NDAYS` is empty or unset, or `NDAYS` is not a
decimal integer (an optional sign, then digits), or its value is outside the range
-2^63 … 2^63-1 of `int`, or `APIKEY` is empty or unset; otherwise it returns the config
made of `SYMBOL`, the value of `NDAYS` and `APIKEY`. -/
theorem c16_load_config (getenv : String → String) (quote : String → String) :
    ((∃ e, loadConfig getenv quote = .error e) ↔
      (getenv "SYMBOL" = "" ∨ getenv "NDAYS" = "" ∨
        isDecimalInteger (getenv "NDAYS") = false ∨
        decimalValue (getenv "NDAYS") < -9223372036854775808 ∨
        9223372036854775807 < decimalValue (getenv "NDAYS") ∨ getenv "APIKEY" = "")) ∧
    (¬ (getenv "SYMBOL" = "" ∨ getenv "NDAYS" = "" ∨
        isDecimalInteger (getenv "NDAYS") = false ∨
        decimalValue (getenv "NDAYS") < -9223372036854775808 ∨
        9223372036854775807 < decimalValue (getenv "NDAYS") ∨ getenv "APIKEY" = "") →
      loadConfig getenv quote =
        .ok { Symbol := getenv "SYMBOL", NDays := decimalValue (getenv "NDAYS")
              APIKey := getenv "APIKEY" }) := by
  have hp := ParseInt_ok (getenv "NDAYS")
  unfold loadConfig Atoi
  by_cases h1 : getenv "SYMBOL" = ""
  · simp [h1]
  · by_cases h2 : getenv "NDAYS" = ""
    · simp [h1, h2]
    · by_cases h4 : getenv "APIKEY" = ""
      · simp only [h1, h2, h4, if_false, if_true]
        cases herr : (ParseInt (getenv "NDAYS")).2 <;> simp
      · simp only [h1, h2, h4, if_false, false_or, or_false]
        cases herr : (ParseInt (getenv "NDAYS")).2 with
        | some e =>
          have hno : ¬ (isDecimalInteger (getenv "NDAYS") = true ∧
              -(9223372036854775808 : Int) ≤ decimalValue (getenv "NDAYS") ∧
              decimalValue (getenv "NDAYS") ≤ 9223372036854775807) := by
            intro h
            rw [hp.1.2 h] at herr
            exact absurd herr (by simp)
          have hbad : isDecimalInteger (getenv "NDAYS") = false ∨
              decimalValue (getenv "NDAYS") < -9223372036854775808 ∨
              9223372036854775807 < decimalValue (getenv "NDAYS") := by
            by_contra hcon
            apply hno
            simp only [not_or, Bool.not_eq_false, not_lt] at hcon
            exact hcon
          simp [hbad]
        | none =>
          have hok := hp.1.1 herr
          have hval := hp.2 herr
          have hgood : ¬ (isDecimalInteger (getenv "NDAYS") = false ∨
              decimalValue (getenv "NDAYS") < -9223372036854775808 ∨
              9223372036854775807 < decimalValue (getenv "NDAYS")) := by
            rintro (h | h | h)
            · rw [hok.1] at h; exact absurd h (by decide)
            · omega
            · omega
          simp [hgood, hval]

/-- C16, witness: the environment of the test `All environment variables set correctly`. -/
theorem c16_load_config_witness :
    loadConfig (envOf "AAPL" "5" "test-api-key") plainQuote =
      .ok { Symbol := "AAPL", NDays := 5, APIKey := "test-api-key" } :=
  (c16_load_config (envOf "AAPL" "5" "test-api-key") plainQuote).2 (by decide)

/-- The runtime `jsonRuntime` keeps the contract of the encoder. -/
theorem jsonRuntime_encodes (avResp : AlphaVantageResponse Binary64) :
    EncodesJSON (jsonRuntime avResp) Binary64.isFinite renderJSON := by
  intro r
  constructor
  · intro h
    show (if r.floats.all Binary64.isFinite = true then
      Except.ok (renderJSON r.toDoc ++ "\n") else Except.error (unsupportedValue r.floats)) = _
    rw [if_pos h]
  · intro h
    refine ⟨unsupportedValue r.floats, ?_⟩
    show (if r.floats.all Binary64.isFinite = true then
      Except.ok (renderJSON r.toDoc ++ "\n") else Except.error (unsupportedValue r.floats)) = _
    rw [if_neg (by rw [h]; decide)]

/-- C14, counterexample: for a day whose open price is `"1e999"`, `fetchStockData` returns
a record and a nil error, yet the handler writes status 200 and an empty body, no JSON
object: the record holds +Inf, the encoder fails and its error is dropped. And when no
record is returned, the member `data` of the object is `null`, not a sequence. -/
theorem c14_counterexample :
    (fetchStockData (jsonRuntime (responseOf outOfRangeDay)) testConfig.Symbol testConfig.NDays
        testConfig.APIKey (fixedClient (some ⟨200, ""⟩, none))).1 =
      .done { data := [{ Date := "2025-01-15"
                         OpenPrice := .inf false
                         HighPrice := (Binary64.ParseFloat "236.80").1
                         LowPrice := (Binary64.ParseFloat "233.20").1
                         ClosePrice := (Binary64.ParseFloat "235.60").1
                         Volume := 9223372036854775807 }]
              avgClose := (Binary64.ParseFloat "235.60").1, err := none } ∧
    (createHandler (jsonRuntime (responseOf outOfRangeDay)) testConfig
        (fixedClient (some ⟨200, ""⟩, none)) getRequest).1 =
      .done { Code := 200, Header := [("Content-Type", "application/json")], Body := "" } ∧
    (createHandler (jsonRuntime (responseOf invalidClose)) testConfig
        (fixedClient (some ⟨200, ""⟩, none)) getRequest).1 =
      .done { Code := 200, Header := [("Content-Type", "application/json")]
              Body := "\x7b\"symbol\":\"AAPL\",\"days\":5,\"average_close\":0,\"data\":null\x7d\n" } := by
  decide!

/-- C14 (success response, amended): for every GET request for which `fetchStockData`
returns `(data, avg, nil)` with `avg` and the prices of all records finite, the handler
answers with status 200, the content type `application/json` and the text (with a newline)
of the JSON object whose `symbol` is the configured symbol, whose `days` is the configured
day count, whose `average_close` is `avg` and whose `data` is the sequence of the returned
records in order, each with `date`, `open`, `high`, `low`, `close`, `volume`, or `null`
when no record is returned. `hencode` is the contract of `encoding/json`. -/
theorem c14_success_response (rt : Runtime F) (isFinite : F → Bool)
    (render : JSONDoc F → String) (config : Config) (client : HTTPClient) (r : Request)
    (data : List (TimeSeriesData F)) (avg : F) (evs : List Event)
    (hencode : EncodesJSON rt isFinite render) (hmethod : r.Method = "GET")
    (hfetch : fetchStockData rt config.Symbol config.NDays config.APIKey client =
      (.done { data := data, avgClose := avg, err := none }, evs))
    (havg : isFinite avg = true)
    (hdata : ∀ d ∈ data, isFinite d.OpenPrice = true ∧ isFinite d.HighPrice = true ∧
      isFinite d.LowPrice = true ∧ isFinite d.ClosePrice = true) :
    createHandler rt config client r =
      (.done { Code := 200
               Header := [("Content-Type", "application/json")]
               Body := render (.object [("symbol", .string config.Symbol),
                 ("days", .int config.NDays), ("average_close", .float avg),
                 ("data", if data.isEmpty then .null
                   else .array (data.map (fun d => .object [("date", .string d.Date),
                     ("open", .float d.OpenPrice), ("high", .float d.HighPrice),
                     ("low", .float d.LowPrice), ("close", .float d.ClosePrice),
                     ("volume", .int d.Volume)])))]) ++ "\n" }, evs) := by
  have hfin : (StockResponse.floats
      { Symbol := config.Symbol, Days := config.NDays, AverageClose := avg, Data := data }).all
      isFinite = true := by
    unfold StockResponse.floats
    rw [List.all_cons, havg, Bool.true_and, List.all_eq_true]
    intro x hx
    obtain ⟨l, hl, hxl⟩ := List.mem_flatten.1 hx
    obtain ⟨d, hd, rfl⟩ := List.mem_map.1 hl
    have h4 := hdata d hd
    simp only [List.mem_cons, List.mem_singleton, List.not_mem_nil, or_false] at hxl
    rcases hxl with rfl | rfl | rfl | rfl
    · exact h4.1
    · exact h4.2.1
    · exact h4.2.2.1
    · exact h4.2.2.2
  have henc := (hencode { Symbol := config.Symbol, Days := config.NDays, AverageClose := avg
                          Data := data }).1 hfin
  unfold createHandler
  rw [if_neg (by simp [hmethod]), hfetch]
  simp only [henc]
  rfl

/-- C14, witness: the handler of the tests on the day of the test `Single day`, with the
text that `encoding/json` writes. -/
theorem c14_success_response_witness :
    createHandler (jsonRuntime (responseOf singleDay)) testConfig
        (fixedClient (some ⟨200, ""⟩, none)) getRequest =
      (.done { Code := 200
               Header := [("Content-Type", "application/json")]
               Body := "\x7b\"symbol\":\"AAPL\",\"days\":5,\"average_close\":235.6,\"data\":[\x7b\"date\":\"2025-01-15\",\"open\":234.5,\"high\":236.8,\"low\":233.2,\"close\":235.6,\"volume\":45000000\x7d]\x7d\n" },
        [.Get (apiURL "test-api-key" "AAPL"), .Decode "", .Close]) :=
  (c14_success_response (jsonRuntime (responseOf singleDay)) Binary64.isFinite renderJSON
    testConfig (fixedClient (some ⟨200, ""⟩, none)) getRequest
    [{ Date := "2025-01-15"
       OpenPrice := (Binary64.ParseFloat "234.50").1
       HighPrice := (Binary64.ParseFloat "236.80").1
       LowPrice := (Binary64.ParseFloat "233.20").1
       ClosePrice := (Binary64.ParseFloat "235.60").1
       Volume := 45000000 }]
    (Binary64.ParseFloat "235.60").1
    [.Get (apiURL "test-api-key" "AAPL"), .Decode "", .Close]
    (jsonRuntime_encodes _) rfl (by decide!) (by decide!) (by decide!)).trans (by decide!)

end StockTicker
